import Mathlib

/-!
Verification development for a small 16-bit virtual computer: a cycle-accurate
emulator (`Tcpu`, from `tcpu/src/lib.rs`) and its companion assembler
(`Asm`, from `asm/src/main.rs`).

Machine integers are modelled as `Nat` with explicit `% 2^w` wrapping at the
operations where the source relies on wrapping (`u16` registers/addresses,
`u8` memory bytes, `u64` counters, `usize` pointers).  Fixed-size buffers
(`[u8; 65536]` memory, `[u8; 1048576]` disk payload, the 64-entry event-queue
array) are modelled as total functions `Nat → Nat` (resp. `Nat → Event`),
indexed with the same `% size` reductions that the source performs; all
indices produced by the source are in range, so the reductions are exact.
The `Tracer` hooks of the source are pure observers (the shipped
`NoopTracer` does nothing) and are omitted.
-/

namespace Tcpu

/-- Source: `const DISK_SIZE: usize = 1 << 20`. -/
def DISK_SIZE : Nat := 1048576

/-- Source: `const MEMORY_SIZE: usize = 1 << 16`. -/
def MEMORY_SIZE : Nat := 65536

/-- Source: `const SCREEN_WIDTH: usize = 64`. -/
def SCREEN_WIDTH : Nat := 64

/-- Source: `const SCREEN_HEIGHT: usize = 48`. -/
def SCREEN_HEIGHT : Nat := 48

/-- Source: `const SCREEN_POSITION: u16 = 0b1100_0000_0000_0000`. -/
def SCREEN_POSITION : Nat := 49152

/-- Source: `const SCREEN_REFRESH_TIME: u64 = 78643`. -/
def SCREEN_REFRESH_TIME : Nat := 78643

/-- Source: `const DISK_OP_SIZE: usize = 4096`. -/
def DISK_OP_SIZE : Nat := 4096

/-- Source: `const CYCLES_PER_BYTE: u64 = 32`. -/
def CYCLES_PER_BYTE : Nat := 32

/-- Source: `const EVENT_QUEUE_CAPACITY: usize = 64`. -/
def EVENT_QUEUE_CAPACITY : Nat := 64

/-- Largest `u64` value, used by `u64::max_value()` / saturating adds. -/
def U64_MAX : Nat := 18446744073709551615

/-- Source: `struct Event { id: u16, arg: u16 }`. -/
structure Event where
  id : Nat
  arg : Nat
deriving DecidableEq, Repr

/-- Source: `Event::key_up`. -/
def Event.key_up (key : Nat) : Event := ⟨1, key⟩

/-- Source: `Event::key_down`. -/
def Event.key_down (key : Nat) : Event := ⟨2, key⟩

/-- Source: `Event::screen_refresh`. -/
def Event.screen_refresh : Event := ⟨3, 0⟩

/-- Source: `enum DiskId { D0, D1 }`. -/
inductive DiskId where
  | D0
  | D1
deriving DecidableEq, Repr

/-- Source: `enum DiskResult { Ok, DiskNotPresent, DiskBusy }`. -/
inductive DiskResult where
  | Ok
  | DiskNotPresent
  | DiskBusy
deriving DecidableEq, Repr

/-- Source: `Event::disk_finished`. -/
def Event.disk_finished (disk : DiskId) (result : DiskResult) : Event :=
  { id := match disk with
      | .D0 => 4
      | .D1 => 5
    arg := match result with
      | .Ok => 0
      | .DiskNotPresent => 1
      | .DiskBusy => 2 }

/-- Source: `struct EventQueue { items: [Event; 64], head: usize, len: usize }`.
The fixed array is a total function; every access in the operations below
reduces its index `% 64` exactly as the source does (or with the source's
in-range invariant made explicit). -/
structure EventQueue where
  items : Nat → Event
  head : Nat
  len : Nat

/-- Source: `EventQueue::new`. -/
def EventQueue.new : EventQueue :=
  { items := fun _ => ⟨0, 0⟩, head := 0, len := 0 }

/-- Source: `EventQueue::push`: write at `(head + len) % 64`, then either
advance `head` (queue full: the oldest element is dropped) or grow `len`. -/
def EventQueue.push (q : EventQueue) (event : Event) : EventQueue :=
  let items := Function.update q.items ((q.head + q.len) % EVENT_QUEUE_CAPACITY) event
  if q.len = EVENT_QUEUE_CAPACITY then
    { items := items, head := (q.head + 1) % EVENT_QUEUE_CAPACITY, len := q.len }
  else
    { items := items, head := q.head, len := q.len + 1 }

/-- Source: `EventQueue::pop`. Returns the popped event (if any) together with
the updated queue (the source mutates `self`). -/
def EventQueue.pop (q : EventQueue) : Option Event × EventQueue :=
  if q.len = 0 then
    (none, q)
  else
    (some (q.items (q.head % EVENT_QUEUE_CAPACITY)),
      { items := q.items, head := (q.head + 1) % EVENT_QUEUE_CAPACITY, len := q.len - 1 })

/-- Source: `enum DiskOp { Reading {..}, Writing {..} }` with fields
`disk_ptr`, `memory_ptr`, `remaining` (`usize`) and `delay` (`u64`). -/
inductive DiskOp where
  | Reading (disk_ptr memory_ptr remaining delay : Nat)
  | Writing (disk_ptr memory_ptr remaining delay : Nat)
deriving DecidableEq, Repr

/-- The `remaining` field of either `DiskOp` variant. -/
def DiskOp.remaining : DiskOp → Nat
  | .Reading _ _ remaining _ => remaining
  | .Writing _ _ remaining _ => remaining

/-- The `delay` field of either `DiskOp` variant. -/
def DiskOp.delay : DiskOp → Nat
  | .Reading _ _ _ delay => delay
  | .Writing _ _ _ delay => delay

/-- Source: `enum SlotDisk { Missing, Present { modified, idle_time, running_op } }`. -/
inductive SlotDisk where
  | Missing
  | Present (modified : Bool) (idle_time : Nat) (running_op : Option DiskOp)
deriving DecidableEq, Repr

/-- The `running_op` of a slot's disk state (`None` when no disk is present). -/
def SlotDisk.runningOp : SlotDisk → Option DiskOp
  | .Missing => none
  | .Present _ _ running_op => running_op

/-- Source: `struct DiskSlot<S> { data: S, disk: SlotDisk }`; the 1 MiB payload
storage is a total function indexed `% DISK_SIZE` at every access. -/
structure DiskSlot where
  data : Nat → Nat
  disk : SlotDisk

/-- Source: `enum CpuState { Running, Waiting, Halted }`. -/
inductive CpuState where
  | Running
  | Waiting
  | Halted
deriving DecidableEq, Repr

/-- Source: `struct Registers` with eight `u16` fields. -/
structure Registers where
  a : Nat
  b : Nat
  c : Nat
  d : Nat
  i : Nat
  j : Nat
  p : Nat
  s : Nat
deriving DecidableEq, Repr

/-- Source: `Registers::new` (all zero). -/
def Registers.new : Registers := ⟨0, 0, 0, 0, 0, 0, 0, 0⟩

/-- Source: `enum Register { A, B, C, D, I, J, P, S }`. -/
inductive Register where
  | A
  | B
  | C
  | D
  | I
  | J
  | P
  | S
deriving DecidableEq, Repr

/-- Source: `Registers::get`. -/
def Registers.get (regs : Registers) (reg : Register) : Nat :=
  match reg with
  | .A => regs.a
  | .B => regs.b
  | .C => regs.c
  | .D => regs.d
  | .I => regs.i
  | .J => regs.j
  | .P => regs.p
  | .S => regs.s

/-- Source: `Registers::set`. -/
def Registers.set (regs : Registers) (reg : Register) (value : Nat) : Registers :=
  match reg with
  | .A => { regs with a := value }
  | .B => { regs with b := value }
  | .C => { regs with c := value }
  | .D => { regs with d := value }
  | .I => { regs with i := value }
  | .J => { regs with j := value }
  | .P => { regs with p := value }
  | .S => { regs with s := value }

/-- Source: `enum Operand { Register(Register), Word(u16) }`. -/
inductive Operand where
  | Register (r : Register)
  | Word (w : Nat)
deriving DecidableEq, Repr

/-- Source: `struct Address { operand: Operand, offset: u16 }`. -/
structure Address where
  operand : Operand
  offset : Nat
deriving DecidableEq, Repr

/-- Source: `enum Instruction` (decoded instruction forms). -/
inductive Instruction where
  | Nop
  | Ret
  | Wait
  | Poll
  | Halt
  | Not (a : Register)
  | Neg (a : Register)
  | Pop (a : Register)
  | Push (a : Operand)
  | Jmp (a : Operand)
  | Call (a : Operand)
  | Mov (a : Register) (b : Operand)
  | Add (a : Register) (b : Operand)
  | Sub (a : Register) (b : Operand)
  | Xor (a : Register) (b : Operand)
  | And (a : Register) (b : Operand)
  | Or (a : Register) (b : Operand)
  | Shl (a : Register) (b : Operand)
  | Shr (a : Register) (b : Operand)
  | Cmp (a : Register) (b : Operand)
  | Load (a : Register) (b : Address)
  | Loadw (a : Register) (b : Address)
  | Store (a : Operand) (b : Address)
  | Storew (a : Operand) (b : Address)
  | Jez (a : Register) (d : Operand)
  | Jnz (a : Register) (d : Operand)
  | Jl (a : Register) (d : Operand)
  | Jg (a : Register) (d : Operand)
  | Jle (a : Register) (d : Operand)
  | Jge (a : Register) (d : Operand)
  | Read (id : DiskId) (memory_ptr disk_ptr : Operand)
  | Write (id : DiskId) (memory_ptr disk_ptr : Operand)
  | Invalid
deriving DecidableEq, Repr

/-- Source: `struct Emulator` (the `tracer` observer field is omitted; the
screen is the 48×64 byte matrix as a curried function of row and column). -/
structure Emulator where
  memory : Nat → Nat
  screen : Nat → Nat → Nat
  registers : Registers
  instruction_pointer : Nat
  event_queue : EventQueue
  disk_slots : DiskId → DiskSlot
  cycles : Nat
  time_to_refresh : Nat
  state : CpuState

/-- Source: `Emulator::with_tracer` composed with the `Default` storages
(zero-filled memory and disks): the initial emulator built by `Emulator::new`. -/
def Emulator.new : Emulator :=
  { memory := fun _ => 0
    screen := fun _ _ => 0
    registers := Registers.new
    instruction_pointer := 0
    event_queue := EventQueue.new
    disk_slots := fun _ => { data := fun _ => 0, disk := .Missing }
    cycles := 0
    time_to_refresh := SCREEN_REFRESH_TIME
    state := .Running }

/-- Source: `fn load(&self, addr: u16) -> u8`; the `% MEMORY_SIZE` realizes
the `u16` index type of the source. -/
def load (m : Nat → Nat) (addr : Nat) : Nat := m (addr % MEMORY_SIZE)

/-- Source: `fn load_word`: little-endian, second byte at `addr.wrapping_add(1)`. -/
def load_word (m : Nat → Nat) (addr : Nat) : Nat :=
  load m addr + 256 * load m (addr + 1)

/-- Source: `fn store(&mut self, addr: u16, value: u8)`. -/
def store (m : Nat → Nat) (addr value : Nat) : Nat → Nat :=
  Function.update m (addr % MEMORY_SIZE) value

/-- Source: `fn store_word`: `value.to_le_bytes()`, low byte first, high byte
at `addr.wrapping_add(1)`. -/
def store_word (m : Nat → Nat) (addr value : Nat) : Nat → Nat :=
  store (store m addr (value % 256)) (addr + 1) (value / 256 % 256)

/-- Source: `impl Eval<Register>`: read the register file. -/
def evalRegister (s : Emulator) (r : Register) : Nat := s.registers.get r

/-- Source: `impl Eval<Operand>`. -/
def evalOperand (s : Emulator) : Operand → Nat
  | .Register r => evalRegister s r
  | .Word w => w

/-- Source: `impl Eval<Address>`: operand plus offset with 16-bit wrap-around
(`wrapping_add`). -/
def evalAddress (s : Emulator) (address : Address) : Nat :=
  (evalOperand s address.operand + address.offset) % MEMORY_SIZE

/-- Source: `fn decode_register(bits: u8)`: the low three bits name the register. -/
def decode_register (bits : Nat) : Register :=
  match bits % 8 with
  | 0 => .A
  | 1 => .B
  | 2 => .C
  | 3 => .D
  | 4 => .I
  | 5 => .J
  | 6 => .P
  | _ => .S

/-- Source: `fn read_word` during decode: two bytes little-endian, advancing
the instruction pointer (returned as the second component). -/
def read_word (m : Nat → Nat) (ip : Nat) : Nat × Nat :=
  (load m ip + 256 * load m ((ip + 1) % MEMORY_SIZE), (ip + 2) % MEMORY_SIZE)

/-- Source: `fn decode_operand(bits: u8)`: value-selector nibble; selectors
`0xD`/`0xE` consume one/two trailing bytes (the returned `Nat` is the
instruction pointer after the consumed tail). -/
def decode_operand (m : Nat → Nat) (bits : Nat) (ip : Nat) : Operand × Nat :=
  match bits % 16 with
  | 8 => (.Word 0, ip)
  | 9 => (.Word 1, ip)
  | 10 => (.Word 2, ip)
  | 11 => (.Word 3, ip)
  | 12 => (.Word 4, ip)
  | 13 => (.Word (load m ip), (ip + 1) % MEMORY_SIZE)
  | 14 => ((.Word (read_word m ip).1 : Operand), (read_word m ip).2)
  | 15 => (.Word 65535, ip)
  | b => (.Register (decode_register b), ip)

/-- Source: `fn register_operand`: one `reg|value` byte, upper nibble register
(low three bits), lower nibble value selector, then the value's tail bytes. -/
def register_operand (m : Nat → Nat) (ip : Nat) : Register × Operand × Nat :=
  let x := load m ip
  let ip := (ip + 1) % MEMORY_SIZE
  let reg := decode_register (x / 16 % 8)
  let op := decode_operand m (x % 16) ip
  (reg, op.1, op.2)

/-- Source: `fn two_operands`: one `value|value` byte, then each value's tail
bytes in order. -/
def two_operands (m : Nat → Nat) (ip : Nat) : Operand × Operand × Nat :=
  let x := load m ip
  let ip := (ip + 1) % MEMORY_SIZE
  let op1 := decode_operand m (x / 16 % 16) ip
  let op2 := decode_operand m (x % 16) op1.2
  (op1.1, op2.1, op2.2)

/-- Source: `fn decode_load`: `reg|value` byte, then the offset bytes selected
by the low two opcode bits (0 = none, 1 = one byte zero-extended, 2 = two
bytes little-endian), then the value tail bytes. -/
def decode_load (m : Nat → Nat) (b : Nat) (ip : Nat)
    (f : Register → Address → Instruction) : Instruction × Nat :=
  let x := load m ip
  let ip := (ip + 1) % MEMORY_SIZE
  let off : Nat × Nat :=
    match b % 4 with
    | 1 => (load m ip, (ip + 1) % MEMORY_SIZE)
    | 2 => read_word m ip
    | _ => (0, ip)
  let reg := decode_register (x / 16 % 8)
  let op := decode_operand m (x % 16) off.2
  (f reg { operand := op.1, offset := off.1 }, op.2)

/-- Source: `fn decode_store`: like `decode_load` but the upper nibble is a
full value selector. -/
def decode_store (m : Nat → Nat) (b : Nat) (ip : Nat)
    (f : Operand → Address → Instruction) : Instruction × Nat :=
  let x := load m ip
  let ip := (ip + 1) % MEMORY_SIZE
  let off : Nat × Nat :=
    match b % 4 with
    | 1 => (load m ip, (ip + 1) % MEMORY_SIZE)
    | 2 => read_word m ip
    | _ => (0, ip)
  let op := decode_operand m (x / 16 % 16) off.2
  let operand := decode_operand m (x % 16) op.2
  (f op.1 { operand := operand.1, offset := off.1 }, operand.2)

/-- The dispatch of `fn decode_instruction` on the opcode byte `x`, with
`ip1` the instruction pointer just past the opcode byte.  The source
speculatively decodes `register_operand` / `two_operands` / the one-operand
form while restoring the instruction pointer each time and lets the chosen
arm pick the matching result; being pure, the same decodes appear here
directly in the arms that use them. -/
def decode_with (m : Nat → Nat) (x ip1 : Nat) : Instruction × Nat :=
  if x = 0 then (.Nop, ip1)
  else if x = 1 then (.Ret, ip1)
  else if x = 2 then (.Wait, ip1)
  else if x = 3 then (.Poll, ip1)
  else if x = 4 then (.Halt, ip1)
  else if x = 128 then (.Mov (register_operand m ip1).1 (register_operand m ip1).2.1, (register_operand m ip1).2.2)
  else if x = 129 then (.Add (register_operand m ip1).1 (register_operand m ip1).2.1, (register_operand m ip1).2.2)
  else if x = 130 then (.Sub (register_operand m ip1).1 (register_operand m ip1).2.1, (register_operand m ip1).2.2)
  else if x = 131 then (.Xor (register_operand m ip1).1 (register_operand m ip1).2.1, (register_operand m ip1).2.2)
  else if x = 132 then (.And (register_operand m ip1).1 (register_operand m ip1).2.1, (register_operand m ip1).2.2)
  else if x = 133 then (.Or (register_operand m ip1).1 (register_operand m ip1).2.1, (register_operand m ip1).2.2)
  else if x = 134 then (.Shl (register_operand m ip1).1 (register_operand m ip1).2.1, (register_operand m ip1).2.2)
  else if x = 135 then (.Shr (register_operand m ip1).1 (register_operand m ip1).2.1, (register_operand m ip1).2.2)
  else if x = 136 then (.Cmp (register_operand m ip1).1 (register_operand m ip1).2.1, (register_operand m ip1).2.2)
  else if 144 ≤ x ∧ x ≤ 146 then decode_load m x ip1 .Load
  else if 148 ≤ x ∧ x ≤ 150 then decode_load m x ip1 .Loadw
  else if 152 ≤ x ∧ x ≤ 154 then decode_store m x ip1 .Store
  else if 156 ≤ x ∧ x ≤ 158 then decode_store m x ip1 .Storew
  else if 16 ≤ x ∧ x ≤ 23 then (.Not (decode_register x), ip1)
  else if 32 ≤ x ∧ x ≤ 39 then (.Neg (decode_register x), ip1)
  else if 48 ≤ x ∧ x ≤ 55 then (.Pop (decode_register x), ip1)
  else if 64 ≤ x ∧ x ≤ 79 then (.Push (decode_operand m (x % 16) ip1).1, (decode_operand m (x % 16) ip1).2)
  else if 80 ≤ x ∧ x ≤ 95 then (.Jmp (decode_operand m (x % 16) ip1).1, (decode_operand m (x % 16) ip1).2)
  else if 96 ≤ x ∧ x ≤ 111 then (.Call (decode_operand m (x % 16) ip1).1, (decode_operand m (x % 16) ip1).2)
  else if x = 160 then (.Jez (register_operand m ip1).1 (register_operand m ip1).2.1, (register_operand m ip1).2.2)
  else if x = 161 then (.Jnz (register_operand m ip1).1 (register_operand m ip1).2.1, (register_operand m ip1).2.2)
  else if x = 162 then (.Jl (register_operand m ip1).1 (register_operand m ip1).2.1, (register_operand m ip1).2.2)
  else if x = 163 then (.Jg (register_operand m ip1).1 (register_operand m ip1).2.1, (register_operand m ip1).2.2)
  else if x = 164 then (.Jle (register_operand m ip1).1 (register_operand m ip1).2.1, (register_operand m ip1).2.2)
  else if x = 165 then (.Jge (register_operand m ip1).1 (register_operand m ip1).2.1, (register_operand m ip1).2.2)
  else if x = 240 then (.Read .D0 (two_operands m ip1).1 (two_operands m ip1).2.1, (two_operands m ip1).2.2)
  else if x = 241 then (.Read .D1 (two_operands m ip1).1 (two_operands m ip1).2.1, (two_operands m ip1).2.2)
  else if x = 248 then (.Write .D0 (two_operands m ip1).1 (two_operands m ip1).2.1, (two_operands m ip1).2.2)
  else if x = 249 then (.Write .D1 (two_operands m ip1).1 (two_operands m ip1).2.1, (two_operands m ip1).2.2)
  else (.Invalid, ip1)

/-- Source: `fn decode_instruction`: reads the opcode byte at the instruction
pointer and dispatches on it; the returned `Nat` is the final instruction
pointer (past every byte the chosen encoding consumes — for the `Invalid`
fallback only the opcode byte). -/
def decode_instruction (m : Nat → Nat) (ip0 : Nat) : Instruction × Nat :=
  decode_with m (load m ip0) ((ip0 + 1) % MEMORY_SIZE)

/-- Source: `fn apply_instruction`.  The emulator is received with the
instruction pointer already advanced past the decoded instruction. -/
def apply_instruction (s : Emulator) (instruction : Instruction) : Emulator :=
  match instruction with
  | .Nop => s
  | .Ret =>
    let regs := { s.registers with s := (s.registers.s + 2) % MEMORY_SIZE }
    { s with registers := regs, instruction_pointer := load_word s.memory regs.s }
  | .Wait => { s with state := .Waiting }
  | .Poll =>
    match s.event_queue.pop with
    | (some event, q) =>
      { s with registers := { s.registers with a := event.id, b := event.arg },
               event_queue := q }
    | (none, _) =>
      { s with registers := { s.registers with a := 0, b := 0 } }
  | .Halt => { s with state := .Halted }
  | .Not a =>
    { s with registers := s.registers.set a (evalRegister s a ^^^ 65535) }
  | .Neg a =>
    { s with registers :=
        s.registers.set a ((MEMORY_SIZE - evalRegister s a % MEMORY_SIZE) % MEMORY_SIZE) }
  | .Pop a =>
    let regs := { s.registers with s := (s.registers.s + 2) % MEMORY_SIZE }
    { s with registers := regs.set a (load_word s.memory regs.s) }
  | .Push a =>
    { s with memory := store_word s.memory s.registers.s (evalOperand s a),
             registers := { s.registers with s := (s.registers.s + MEMORY_SIZE - 2) % MEMORY_SIZE } }
  | .Jmp a => { s with instruction_pointer := evalOperand s a }
  | .Call a =>
    { s with memory := store_word s.memory s.registers.s s.instruction_pointer,
             instruction_pointer := evalOperand s a,
             registers := { s.registers with s := (s.registers.s + MEMORY_SIZE - 2) % MEMORY_SIZE } }
  | .Mov a b => { s with registers := s.registers.set a (evalOperand s b) }
  | .Add a b =>
    { s with registers := s.registers.set a ((evalRegister s a + evalOperand s b) % MEMORY_SIZE) }
  | .Sub a b =>
    { s with registers :=
        s.registers.set a ((evalRegister s a + MEMORY_SIZE - evalOperand s b % MEMORY_SIZE) % MEMORY_SIZE) }
  | .Xor a b => { s with registers := s.registers.set a (evalRegister s a ^^^ evalOperand s b) }
  | .And a b => { s with registers := s.registers.set a (evalRegister s a &&& evalOperand s b) }
  | .Or a b => { s with registers := s.registers.set a (evalRegister s a ||| evalOperand s b) }
  | .Shl a b =>
    let shift := evalOperand s b
    { s with registers :=
        s.registers.set a (if shift ≥ 16 then 0 else evalRegister s a * 2 ^ shift % MEMORY_SIZE) }
  | .Shr a b =>
    let shift := evalOperand s b
    { s with registers :=
        s.registers.set a (if shift ≥ 16 then 0 else evalRegister s a / 2 ^ shift) }
  | .Cmp a b =>
    let av := evalRegister s a
    let bv := evalOperand s b
    { s with registers :=
        s.registers.set a (if av > bv then 1 else if av = bv then 0 else 65535) }
  | .Load a b =>
    let addr := evalAddress s b
    { s with registers := s.registers.set a (load s.memory addr) }
  | .Loadw a b =>
    let addr := evalAddress s b
    { s with registers := s.registers.set a (load_word s.memory addr) }
  | .Store a b =>
    let addr := evalAddress s b
    { s with memory := store s.memory addr (evalOperand s a % 256) }
  | .Storew a b =>
    let addr := evalAddress s b
    { s with memory := store_word s.memory addr (evalOperand s a) }
  | .Jez a d =>
    if evalRegister s a = 0 then { s with instruction_pointer := evalOperand s d } else s
  | .Jnz a d =>
    if evalRegister s a ≠ 0 then { s with instruction_pointer := evalOperand s d } else s
  | .Jl a d =>
    if evalRegister s a = 65535 then { s with instruction_pointer := evalOperand s d } else s
  | .Jg a d =>
    if evalRegister s a = 1 then { s with instruction_pointer := evalOperand s d } else s
  | .Jle a d =>
    if evalRegister s a ≠ 1 then { s with instruction_pointer := evalOperand s d } else s
  | .Jge a d =>
    if evalRegister s a ≠ 65535 then { s with instruction_pointer := evalOperand s d } else s
  | .Read id memory_ptr disk_ptr =>
    let memory_ptr := evalOperand s memory_ptr
    let disk_ptr := evalOperand s disk_ptr * 16
    match (s.disk_slots id).disk with
    | .Present modified _ none =>
      let slot : DiskSlot :=
        { data := (s.disk_slots id).data
          disk := .Present modified 0
            (some (.Reading disk_ptr memory_ptr DISK_OP_SIZE CYCLES_PER_BYTE)) }
      { s with disk_slots := Function.update s.disk_slots id slot }
    | .Present _ _ (some _) =>
      { s with event_queue := s.event_queue.push (Event.disk_finished id .DiskBusy) }
    | .Missing =>
      { s with event_queue := s.event_queue.push (Event.disk_finished id .DiskNotPresent) }
  | .Write id memory_ptr disk_ptr =>
    let memory_ptr := evalOperand s memory_ptr
    let disk_ptr := evalOperand s disk_ptr * 16
    match (s.disk_slots id).disk with
    | .Present _ _ none =>
      let slot : DiskSlot :=
        { data := (s.disk_slots id).data
          disk := .Present true 0
            (some (.Writing disk_ptr memory_ptr DISK_OP_SIZE CYCLES_PER_BYTE)) }
      { s with disk_slots := Function.update s.disk_slots id slot }
    | .Present _ _ (some _) =>
      { s with event_queue := s.event_queue.push (Event.disk_finished id .DiskBusy) }
    | .Missing =>
      { s with event_queue := s.event_queue.push (Event.disk_finished id .DiskNotPresent) }
  | .Invalid => s

/-- Source: `u64::saturating_add(1)` on a disk's idle counter. -/
def satAdd1 (n : Nat) : Nat := min (n + 1) U64_MAX

/-- Source: `fn update_disk`: one tick of a slot's running operation (the
pointer increments are `usize::wrapping_add`, hence the `% 2^64`); an idle
present disk advances its idle counter with saturation. Returns the updated
memory, the updated slot, and the completion event if the op retired. -/
def update_disk (disk_id : DiskId) (memory : Nat → Nat) (slot : DiskSlot) :
    (Nat → Nat) × DiskSlot × Option Event :=
  match slot.disk with
  | .Present modified idle_time (some (.Reading disk_ptr memory_ptr remaining delay)) =>
    let delay := delay - 1
    if delay = 0 then
      let memory := Function.update memory (memory_ptr % MEMORY_SIZE) (slot.data (disk_ptr % DISK_SIZE))
      let disk_ptr := (disk_ptr + 1) % 18446744073709551616
      let memory_ptr := (memory_ptr + 1) % 18446744073709551616
      let remaining := remaining - 1
      if remaining = 0 then
        let done : SlotDisk := .Present modified idle_time none
        (memory, { slot with disk := done }, some (Event.disk_finished disk_id .Ok))
      else
        let going : SlotDisk :=
          .Present modified idle_time (some (.Reading disk_ptr memory_ptr remaining CYCLES_PER_BYTE))
        (memory, { slot with disk := going }, none)
    else
      let going : SlotDisk :=
        .Present modified idle_time (some (.Reading disk_ptr memory_ptr remaining delay))
      (memory, { slot with disk := going }, none)
  | .Present modified idle_time (some (.Writing disk_ptr memory_ptr remaining delay)) =>
    let delay := delay - 1
    if delay = 0 then
      let data := Function.update slot.data (disk_ptr % DISK_SIZE) (memory (memory_ptr % MEMORY_SIZE))
      let disk_ptr := (disk_ptr + 1) % 18446744073709551616
      let memory_ptr := (memory_ptr + 1) % 18446744073709551616
      let remaining := remaining - 1
      if remaining = 0 then
        let done : SlotDisk := .Present modified idle_time none
        (memory, { data := data, disk := done }, some (Event.disk_finished disk_id .Ok))
      else
        let going : SlotDisk :=
          .Present modified idle_time (some (.Writing disk_ptr memory_ptr remaining CYCLES_PER_BYTE))
        (memory, { data := data, disk := going }, none)
    else
      let going : SlotDisk :=
        .Present modified idle_time (some (.Writing disk_ptr memory_ptr remaining delay))
      (memory, { slot with disk := going }, none)
  | .Present modified idle_time none =>
    let idle : SlotDisk := .Present modified (satAdd1 idle_time) none
    (memory, { slot with disk := idle }, none)
  | .Missing => (memory, slot, none)

/-- One slot's share of the per-cycle disk loop in `fn cycle`: run
`update_disk` and queue its completion event, if any. -/
def disk_step (disk_id : DiskId) (s : Emulator) : Emulator :=
  let r := update_disk disk_id s.memory (s.disk_slots disk_id)
  let s := { s with memory := r.1, disk_slots := Function.update s.disk_slots disk_id r.2.1 }
  match r.2.2 with
  | some event => { s with event_queue := s.event_queue.push event }
  | none => s

/-- Source: `fn refresh_screen`: repopulate the 48×64 framebuffer from memory
starting at `SCREEN_POSITION`, row-major.  Cells outside the framebuffer
bounds keep their old (irrelevant) value, matching the fixed array. -/
def refresh_screen (s : Emulator) : Emulator :=
  { s with screen := fun row col =>
      if row < SCREEN_HEIGHT ∧ col < SCREEN_WIDTH then
        load s.memory (SCREEN_POSITION + (row * SCREEN_WIDTH + col))
      else s.screen row col }

/-- The screen-refresh step of `fn cycle`: when the refresh timer hit zero,
repopulate the framebuffer, reload the timer and queue a refresh event. -/
def screen_phase (s : Emulator) : Emulator :=
  if s.time_to_refresh = 0 then
    let s := refresh_screen s
    { s with time_to_refresh := SCREEN_REFRESH_TIME,
             event_queue := s.event_queue.push Event.screen_refresh }
  else s

/-- The waiting-state step of `fn cycle`: a waiting CPU that finds an event
dequeues it into `A`/`B` and resumes running. -/
def waiting_phase (s : Emulator) : Emulator :=
  if s.state = .Waiting then
    match s.event_queue.pop with
    | (some event, q) =>
      { s with registers := { s.registers with a := event.id, b := event.arg },
               event_queue := q, state := .Running }
    | (none, _) => s
  else s

/-- The instruction step of `fn cycle`: a running CPU decodes and applies
one instruction. -/
def execute_phase (s : Emulator) : Emulator :=
  if s.state = .Running then
    let d := decode_instruction s.memory s.instruction_pointer
    apply_instruction { s with instruction_pointer := d.2 } d.1
  else s

/-- Source: `fn cycle`: screen refresh when due, refresh-timer decrement,
one disk tick per slot (slot 0 then slot 1), cycle counter, waiting-state
event delivery, then (when running) decode and apply one instruction. -/
def cycle (s : Emulator) : Emulator :=
  let s := screen_phase s
  let s := { s with time_to_refresh := s.time_to_refresh - 1 }
  let s := disk_step .D0 s
  let s := disk_step .D1 s
  let s := { s with cycles := s.cycles + 1 }
  let s := waiting_phase s
  execute_phase s

/-- Source: `fn run(&mut self, cycles: u64)`: iterate `cycle`. -/
def run (n : Nat) (s : Emulator) : Emulator :=
  match n with
  | 0 => s
  | n + 1 => run n (cycle s)

/-- Source: `fn is_running`: `self.state != CpuState::Halted`. -/
def is_running (s : Emulator) : Bool := s.state ≠ CpuState.Halted

/-- Source: `fn insert_disk`: only an empty slot is filled; a freshly
inserted disk is unmodified, maximally idle, and has no running operation. -/
def insert_disk (id : DiskId) (s : Emulator) : Emulator :=
  match (s.disk_slots id).disk with
  | .Missing =>
    let slot : DiskSlot :=
      { data := (s.disk_slots id).data
        disk := .Present false U64_MAX none }
    { s with disk_slots := Function.update s.disk_slots id slot }
  | _ => s

/-- Source: `fn remove_disk`: the slot's disk state becomes `Missing`
(the payload storage stays with the slot). -/
def remove_disk (id : DiskId) (s : Emulator) : Emulator :=
  let slot : DiskSlot := { data := (s.disk_slots id).data, disk := .Missing }
  { s with disk_slots := Function.update s.disk_slots id slot }

/-- State `s` with slot `id`'s disk state replaced, its payload kept: the
shape of every slot mutation that `insert_disk` and the disk instructions
perform. -/
def withDiskState (s : Emulator) (id : DiskId) (d : SlotDisk) : Emulator :=
  let slot : DiskSlot := { data := (s.disk_slots id).data, disk := d }
  { s with disk_slots := Function.update s.disk_slots id slot }

/-- Source: `fn reset`: drop running ops, zero memory/screen/registers,
reset the instruction pointer, event queue, cycle counter and refresh timer,
return to `Running`; then, if disk 0 is present, copy its first
`DISK_OP_SIZE` bytes to the bottom of memory and zero its idle counter. -/
def reset (s : Emulator) : Emulator :=
  let slots : DiskId → DiskSlot := fun d =>
    { data := (s.disk_slots d).data
      disk := match (s.disk_slots d).disk with
        | .Missing => .Missing
        | .Present modified idle_time _ => .Present modified idle_time none }
  let base : Emulator :=
    { memory := fun _ => 0
      screen := fun _ _ => 0
      registers := Registers.new
      instruction_pointer := 0
      event_queue := EventQueue.new
      disk_slots := slots
      cycles := 0
      time_to_refresh := SCREEN_REFRESH_TIME
      state := .Running }
  match (slots .D0).disk with
  | .Present modified _ running_op =>
    let slot0 : DiskSlot :=
      { data := (slots .D0).data, disk := .Present modified 0 running_op }
    { base with
        memory := fun a => if a < DISK_OP_SIZE then (slots .D0).data a else 0
        disk_slots := Function.update slots .D0 slot0 }
  | .Missing => base

/-- Source: `fn key_up`: queue a key-up event. -/
def key_up (key : Nat) (s : Emulator) : Emulator :=
  { s with event_queue := s.event_queue.push (Event.key_up key) }

/-- Source: `fn key_down`: queue a key-down event. -/
def key_down (key : Nat) (s : Emulator) : Emulator :=
  { s with event_queue := s.event_queue.push (Event.key_down key) }

end Tcpu

namespace Asm

/-!
Embedding of the assembler (`asm/src/main.rs`).  Source lines are lists of
characters; the inputs of interest are ASCII, where Rust's byte positions
coincide with character positions, so `Fragment` spans are character indices.
`SmallBuf` byte buffers are `List Nat` of byte values; the label `HashMap`
is a partial function from names to values.
-/

/-- Source: `enum DiskId { D0, D1 }` (assembler side). -/
inductive DiskId where
  | D0
  | D1
deriving DecidableEq, Repr

/-- Source: `DiskId::assemble`. -/
def DiskId.assemble : DiskId → Nat
  | .D0 => 0
  | .D1 => 1

/-- Source: `enum Register` (assembler side). -/
inductive Register where
  | A
  | B
  | C
  | D
  | I
  | J
  | P
  | S
deriving DecidableEq, Repr

/-- Source: `Register::assemble`. -/
def Register.assemble : Register → Nat
  | .A => 0
  | .B => 1
  | .C => 2
  | .D => 3
  | .I => 4
  | .J => 5
  | .P => 6
  | .S => 7

/-- Source: `enum Format { Binary, Decimal, Hexadecimal }`. -/
inductive Format where
  | Binary
  | Decimal
  | Hexadecimal
deriving DecidableEq, Repr

/-- Source: `struct Number { value: u16, format: Format }`. -/
structure Number where
  value : Nat
  format : Format
deriving DecidableEq, Repr

/-- Source: `struct Fragment`: a span of one source line; `start`/`stop`
are the source's `start`/`end` indices into the line. -/
structure Fragment where
  line : List Char
  line_number : Nat
  start : Nat
  stop : Nat
deriving DecidableEq, Repr

/-- Source: `Fragment::new`: the whole line. -/
def Fragment.new (line : List Char) (line_number : Nat) : Fragment :=
  { line := line, line_number := line_number, start := 0, stop := line.length }

/-- Source: `Fragment::prefix(len)`. -/
def Fragment.takeStart (f : Fragment) (len : Nat) : Fragment :=
  { f with stop := min (f.start + len) f.stop }

/-- Source: `Fragment::suffix(len)` (with `usize::saturating_sub`). -/
def Fragment.takeEnd (f : Fragment) (len : Nat) : Fragment :=
  { f with start := max f.start (f.stop - len) }

/-- Source: `Fragment::as_str`. -/
def Fragment.asStr (f : Fragment) : List Char :=
  (f.line.drop f.start).take (f.stop - f.start)

/-- Source: `Fragment::len`. -/
def Fragment.len (f : Fragment) : Nat := f.stop - f.start

/-- Source: `Fragment::trim` — drop leading whitespace via `suffix`, then
trailing whitespace via `prefix`, exactly as the source composes them. -/
def Fragment.trim (f : Fragment) : Fragment :=
  let x := f.takeEnd (f.asStr.dropWhile Char.isWhitespace).length
  x.takeStart (x.asStr.reverse.dropWhile Char.isWhitespace).length

/-- Source: `Fragment::split_on(c)`: split at the first occurrence of `c`,
returning the part before it and, when found, the one-character fragment of
`c` itself together with the part after it. -/
def Fragment.splitOn (f : Fragment) (c : Char) : Fragment × Option (Fragment × Fragment) :=
  if f.asStr.contains c then
    let idx := f.asStr.findIdx (fun x => x = c)
    let a := f.takeStart idx
    let b := (f.takeEnd (f.len - idx)).takeStart 1
    let rest := f.takeEnd (f.len - idx - 1)
    (a, some (b, rest))
  else
    (f, none)

/-- Source: `struct Error`: a source span plus a static message. -/
structure Error where
  fragment : Fragment
  message : String
deriving DecidableEq, Repr

/-- Source: `Error::or`: prefer `self` unless its span is empty. -/
def Error.or (e other : Error) : Error :=
  if e.fragment.len = 0 then other else e

/-- Source: `struct Name`. -/
structure Name where
  name : List Char
  fragment : Fragment
deriving DecidableEq, Repr

/-- Source: `enum Constant { Name(Name), Number(Number) }`. -/
inductive Constant where
  | Name (n : Name)
  | Number (n : Number)
deriving DecidableEq, Repr

/-- Source: `enum Value { Register(Register), Constant(Constant) }`. -/
inductive Value where
  | Register (r : Register)
  | Constant (c : Constant)
deriving DecidableEq, Repr

/-- Source: `struct Address { value: Value, offset: Option<Constant> }`. -/
structure Address where
  value : Value
  offset : Option Constant
deriving DecidableEq, Repr

/-- Source: `enum Instruction` (assembler side). -/
inductive Instruction where
  | Nop
  | Ret
  | Wait
  | Poll
  | Not (r : Register)
  | Neg (r : Register)
  | Pop (r : Register)
  | Push (v : Value)
  | Jmp (v : Value)
  | Call (v : Value)
  | Mov (a : Register) (b : Value)
  | Add (a : Register) (b : Value)
  | Sub (a : Register) (b : Value)
  | Xor (a : Register) (b : Value)
  | And (a : Register) (b : Value)
  | Or (a : Register) (b : Value)
  | Shl (a : Register) (b : Value)
  | Shr (a : Register) (b : Value)
  | Cmp (a : Register) (b : Value)
  | Load (a : Register) (b : Address)
  | Loadw (a : Register) (b : Address)
  | Store (a : Value) (b : Address)
  | Storew (a : Value) (b : Address)
  | Jez (a : Register) (b : Constant)
  | Jnz (a : Register) (b : Constant)
  | Jl (a : Register) (b : Constant)
  | Jg (a : Register) (b : Constant)
  | Jle (a : Register) (b : Constant)
  | Jge (a : Register) (b : Constant)
  | Read (d : DiskId) (a : Constant) (b : Constant)
  | Write (d : DiskId) (a : Constant) (b : Constant)
  | Bytes (bytes : List Number)
deriving DecidableEq, Repr

/-- Source: `struct Line { label, instruction }`. -/
structure Line where
  label : Option (List Char)
  instruction : Option Instruction
deriving DecidableEq, Repr

/-- The label table (`HashMap<&str, u16>` in the source). -/
def Labels : Type := List Char → Option Nat

/-- Source: `Constant::assemble`: a label always encodes as selector `0xE`
with a 16-bit little-endian tail; a number takes the shortest encoding
(the final arm is the `0xffff` pattern of the exhaustive `u16` match). -/
def Constant.assemble (c : Constant) (labels : Labels) : Except Error (Nat × List Nat) :=
  match c with
  | .Name n =>
    match labels n.name with
    | none => .error ⟨n.fragment, "undefined label"⟩
    | some x => .ok (14, [x % 256, x / 256 % 256])
  | .Number num =>
    let value := num.value
    if value = 0 then .ok (8, [])
    else if value = 1 then .ok (9, [])
    else if value = 2 then .ok (10, [])
    else if value = 3 then .ok (11, [])
    else if value = 4 then .ok (12, [])
    else if value ≤ 255 then .ok (13, [value % 256])
    else if value ≤ 65534 then .ok (14, [value % 256, value / 256 % 256])
    else .ok (15, [])

/-- Source: `Constant::value`. -/
def Constant.value (c : Constant) (labels : Labels) : Except Error Nat :=
  match c with
  | .Name n =>
    match labels n.name with
    | none => .error ⟨n.fragment, "undefined label"⟩
    | some x => .ok x
  | .Number num => .ok num.value

/-- Source: `Value::assemble`. -/
def Value.assemble (v : Value) (labels : Labels) : Except Error (Nat × List Nat) :=
  match v with
  | .Register r => .ok (r.assemble, [])
  | .Constant c => c.assemble labels

/-- Source: `Instruction::assemble`: the emitted byte sequence (the source
appends it to an output vector; errors leave the vector untouched). -/
def Instruction.assemble (i : Instruction) (labels : Labels) : Except Error (List Nat) :=
  match i with
  | .Nop => .ok [0x00]
  | .Ret => .ok [0x01]
  | .Wait => .ok [0x02]
  | .Poll => .ok [0x03]
  | .Not r => .ok [0x10 + r.assemble]
  | .Neg r => .ok [0x20 + r.assemble]
  | .Pop r => .ok [0x30 + r.assemble]
  | .Push v =>
    match v.assemble labels with
    | .error e => .error e
    | .ok (x, b) => .ok ((0x40 + x) :: b)
  | .Jmp v =>
    match v.assemble labels with
    | .error e => .error e
    | .ok (x, b) => .ok ((0x50 + x) :: b)
  | .Call v =>
    match v.assemble labels with
    | .error e => .error e
    | .ok (x, b) => .ok ((0x60 + x) :: b)
  | .Mov a b =>
    match b.assemble labels with
    | .error e => .error e
    | .ok (bv, buf) => .ok ([0x80, a.assemble * 16 + bv] ++ buf)
  | .Add a b =>
    match b.assemble labels with
    | .error e => .error e
    | .ok (bv, buf) => .ok ([0x81, a.assemble * 16 + bv] ++ buf)
  | .Sub a b =>
    match b.assemble labels with
    | .error e => .error e
    | .ok (bv, buf) => .ok ([0x82, a.assemble * 16 + bv] ++ buf)
  | .Xor a b =>
    match b.assemble labels with
    | .error e => .error e
    | .ok (bv, buf) => .ok ([0x83, a.assemble * 16 + bv] ++ buf)
  | .And a b =>
    match b.assemble labels with
    | .error e => .error e
    | .ok (bv, buf) => .ok ([0x84, a.assemble * 16 + bv] ++ buf)
  | .Or a b =>
    match b.assemble labels with
    | .error e => .error e
    | .ok (bv, buf) => .ok ([0x85, a.assemble * 16 + bv] ++ buf)
  | .Shl a b =>
    match b.assemble labels with
    | .error e => .error e
    | .ok (bv, buf) => .ok ([0x86, a.assemble * 16 + bv] ++ buf)
  | .Shr a b =>
    match b.assemble labels with
    | .error e => .error e
    | .ok (bv, buf) => .ok ([0x87, a.assemble * 16 + bv] ++ buf)
  | .Cmp a b =>
    match b.assemble labels with
    | .error e => .error e
    | .ok (bv, buf) => .ok ([0x88, a.assemble * 16 + bv] ++ buf)
  | .Load a b =>
    match b.offset with
    | none =>
      match b.value.assemble labels with
      | .error e => .error e
      | .ok (v, buf) => .ok ([0x90, a.assemble * 16 + v] ++ buf)
    | some c =>
      match b.value.assemble labels with
      | .error e => .error e
      | .ok (v, buf) =>
        match c.value labels with
        | .error e => .error e
        | .ok off => .ok ([0x92, a.assemble * 16 + v, off % 256, off / 256 % 256] ++ buf)
  | .Loadw a b =>
    match b.offset with
    | none =>
      match b.value.assemble labels with
      | .error e => .error e
      | .ok (v, buf) => .ok ([0x94, a.assemble * 16 + v] ++ buf)
    | some c =>
      match b.value.assemble labels with
      | .error e => .error e
      | .ok (v, buf) =>
        match c.value labels with
        | .error e => .error e
        | .ok off => .ok ([0x96, a.assemble * 16 + v, off % 256, off / 256 % 256] ++ buf)
  | .Store a b =>
    match a.assemble labels with
    | .error e => .error e
    | .ok (av, abuf) =>
      match b.offset with
      | none =>
        match b.value.assemble labels with
        | .error e => .error e
        | .ok (v, buf) => .ok ([0x98, av * 16 + v] ++ abuf ++ buf)
      | some c =>
        match b.value.assemble labels with
        | .error e => .error e
        | .ok (v, buf) =>
          match c.value labels with
          | .error e => .error e
          | .ok off => .ok ([0x9a, av * 16 + v, off % 256, off / 256 % 256] ++ abuf ++ buf)
  | .Storew a b =>
    match a.assemble labels with
    | .error e => .error e
    | .ok (av, abuf) =>
      match b.offset with
      | none =>
        match b.value.assemble labels with
        | .error e => .error e
        | .ok (v, buf) => .ok ([0x9c, av * 16 + v] ++ abuf ++ buf)
      | some c =>
        match b.value.assemble labels with
        | .error e => .error e
        | .ok (v, buf) =>
          match c.value labels with
          | .error e => .error e
          | .ok off => .ok ([0x9e, av * 16 + v, off % 256, off / 256 % 256] ++ abuf ++ buf)
  | .Jez a b =>
    match b.assemble labels with
    | .error e => .error e
    | .ok (bv, buf) => .ok ([0xa0, a.assemble * 16 + bv] ++ buf)
  | .Jnz a b =>
    match b.assemble labels with
    | .error e => .error e
    | .ok (bv, buf) => .ok ([0xa1, a.assemble * 16 + bv] ++ buf)
  | .Jl a b =>
    match b.assemble labels with
    | .error e => .error e
    | .ok (bv, buf) => .ok ([0xa2, a.assemble * 16 + bv] ++ buf)
  | .Jg a b =>
    match b.assemble labels with
    | .error e => .error e
    | .ok (bv, buf) => .ok ([0xa3, a.assemble * 16 + bv] ++ buf)
  | .Jle a b =>
    match b.assemble labels with
    | .error e => .error e
    | .ok (bv, buf) => .ok ([0xa4, a.assemble * 16 + bv] ++ buf)
  | .Jge a b =>
    match b.assemble labels with
    | .error e => .error e
    | .ok (bv, buf) => .ok ([0xa5, a.assemble * 16 + bv] ++ buf)
  | .Read d a b =>
    match a.assemble labels with
    | .error e => .error e
    | .ok (av, ab) =>
      match b.assemble labels with
      | .error e => .error e
      | .ok (bv, bb) => .ok ([0xf0 + d.assemble, av * 16 + bv] ++ ab ++ bb)
  | .Write d a b =>
    match a.assemble labels with
    | .error e => .error e
    | .ok (av, ab) =>
      match b.assemble labels with
      | .error e => .error e
      | .ok (bv, bb) => .ok ([0xf8 + d.assemble, av * 16 + bv] ++ ab ++ bb)
  | .Bytes bytes => .ok (bytes.map fun n => n.value % 256)

/-- Source: `ParseArg for DiskId`: only the exact strings `0` and `1`. -/
def DiskId.parse (fragment : Fragment) : Except Error DiskId :=
  let fragment := fragment.trim
  if fragment.asStr = ['0'] then .ok .D0
  else if fragment.asStr = ['1'] then .ok .D1
  else .error ⟨fragment, "invalid disk"⟩

/-- Source: `ParseArg for Register`: one register letter, either case. -/
def Register.parse (fragment : Fragment) : Except Error Register :=
  let fragment := fragment.trim
  let s := fragment.asStr
  if s = ['a'] ∨ s = ['A'] then .ok .A
  else if s = ['b'] ∨ s = ['B'] then .ok .B
  else if s = ['c'] ∨ s = ['C'] then .ok .C
  else if s = ['d'] ∨ s = ['D'] then .ok .D
  else if s = ['i'] ∨ s = ['I'] then .ok .I
  else if s = ['j'] ∨ s = ['J'] then .ok .J
  else if s = ['p'] ∨ s = ['P'] then .ok .P
  else if s = ['s'] ∨ s = ['S'] then .ok .S
  else .error ⟨fragment, "invalid register"⟩

/-- Source: `char::to_digit`-style digit value used by `from_str_radix`. -/
def digitVal (c : Char) : Option Nat :=
  if '0' ≤ c ∧ c ≤ '9' then some (c.toNat - 48)
  else if 'a' ≤ c ∧ c ≤ 'z' then some (c.toNat - 87)
  else if 'A' ≤ c ∧ c ≤ 'Z' then some (c.toNat - 55)
  else none

/-- Accumulate the digits of a radix-`radix` numeral. -/
def digitsVal (radix : Nat) (s : List Char) : Option Nat :=
  s.foldl
    (fun acc c =>
      match acc, digitVal c with
      | some a, some d => if d < radix then some (a * radix + d) else none
      | _, _ => none)
    (some 0)

/-- Source: `u16::from_str_radix`: an optional leading `+` (unsigned types
accept no `-`), then a non-empty digit string; overflow past `u16::MAX` is
an error (checked here on the final value, which only grows with each
digit, so this agrees with the source's per-digit checked arithmetic). -/
def fromStrRadix (radix : Nat) (s : List Char) : Option Nat :=
  let s := match s with
    | '+' :: rest => rest
    | _ => s
  if s.isEmpty then none
  else
    match digitsVal radix s with
    | some v => if v ≤ 65535 then some v else none
    | none => none

/-- Source: `ParseArg for Number`: `0x`/`0X` hex and `0b`/`0B` binary
prefixes each fall back to the decimal parse of the whole string on
failure, exactly as the source's control flow does. -/
def Number.parse (fragment : Fragment) : Except Error Number :=
  let fragment := fragment.trim
  let s := fragment.asStr
  let dec : Except Error Number :=
    match fromStrRadix 10 s with
    | some value => .ok { value := value, format := .Decimal }
    | none => .error ⟨fragment, "invalid number"⟩
  if s.take 2 = "0x".toList ∨ s.take 2 = "0X".toList then
    match fromStrRadix 16 (s.drop 2) with
    | some value => .ok { value := value, format := .Hexadecimal }
    | none => dec
  else if s.take 2 = "0b".toList ∨ s.take 2 = "0B".toList then
    match fromStrRadix 2 (s.drop 2) with
    | some value => .ok { value := value, format := .Binary }
    | none => dec
  else dec

/-- Source: `fn is_identifier`: `[A-Za-z_][A-Za-z0-9_]*`. -/
def is_identifier (s : List Char) : Bool :=
  match s with
  | [] => false
  | c :: rest =>
    (decide (('a' ≤ c ∧ c ≤ 'z') ∨ ('A' ≤ c ∧ c ≤ 'Z') ∨ c = '_')) &&
      rest.all fun ch =>
        decide (('a' ≤ ch ∧ ch ≤ 'z') ∨ ('A' ≤ ch ∧ ch ≤ 'Z') ∨ ('0' ≤ ch ∧ ch ≤ '9') ∨ ch = '_')

/-- Source: `ParseArg for Name`. -/
def Name.parse (fragment : Fragment) : Except Error Name :=
  let fragment := fragment.trim
  if is_identifier fragment.asStr then
    .ok { name := fragment.asStr, fragment := fragment }
  else
    .error ⟨fragment, "invalid name"⟩

/-- Source: `ParseArg for Constant`: a register is rejected, then number,
then name, otherwise `invalid value`. -/
def Constant.parse (fragment : Fragment) : Except Error Constant :=
  let fragment := fragment.trim
  match Register.parse fragment with
  | .ok _ => .error ⟨fragment, "invalid constant"⟩
  | .error _ =>
    match Number.parse fragment with
    | .ok num => .ok (.Number num)
    | .error _ =>
      match Name.parse fragment with
      | .ok name => .ok (.Name name)
      | .error _ => .error ⟨fragment, "invalid value"⟩

/-- Source: `ParseArg for Value`: register else constant. -/
def Value.parse (fragment : Fragment) : Except Error Value :=
  match Register.parse fragment with
  | .ok reg => .ok (.Register reg)
  | .error _ =>
    match Constant.parse fragment with
    | .ok c => .ok (.Constant c)
    | .error _ => .error ⟨fragment.trim, "invalid value"⟩

/-- Source: `ParseArg for Address`: `value [+ offset]`. -/
def Address.parse (fragment : Fragment) : Except Error Address :=
  let fragment := fragment.trim
  let vo := fragment.splitOn '+'
  match Value.parse vo.1 with
  | .error e => .error e
  | .ok value =>
    match vo.2 with
    | some (plus, off) =>
      match Constant.parse off with
      | .error e => .error (e.or ⟨plus, "missing offset"⟩)
      | .ok c => .ok { value := value, offset := some c }
    | none => .ok { value := value, offset := none }

/-- Source: `fn parse0`. -/
def parse0 (fragment _opcode : Fragment) (instruction : Instruction) : Except Error Instruction :=
  let fragment := fragment.trim
  if fragment.len = 0 then .ok instruction
  else .error ⟨fragment, "expected no arguments"⟩

/-- Source: `fn parse1`, with the argument parser passed explicitly in place
of the `ParseArg` trait dispatch. -/
def parse1 {α : Type} (pA : Fragment → Except Error α)
    (fragment opcode : Fragment) (instruction : α → Instruction) : Except Error Instruction :=
  let fragment := fragment.trim
  if fragment.len = 0 then .error ⟨opcode, "expected one argument"⟩
  else
    match (fragment.splitOn ',').2 with
    | some _ => .error ⟨fragment, "expected one argument"⟩
    | none =>
      match pA fragment with
      | .error e => .error e
      | .ok arg => .ok (instruction arg)

/-- Source: `fn parse2`. -/
def parse2 {α β : Type} (pA : Fragment → Except Error α) (pB : Fragment → Except Error β)
    (fragment opcode : Fragment) (instruction : α → β → Instruction) : Except Error Instruction :=
  let fragment := fragment.trim
  if fragment.len = 0 then .error ⟨opcode, "expected two arguments"⟩
  else
    match fragment.splitOn ',' with
    | (a, some (c, b)) =>
      match (b.splitOn ',').2 with
      | some _ => .error ⟨fragment, "expected two arguments"⟩
      | none =>
        match pA a with
        | .error e => .error (e.or ⟨c, "missing argument"⟩)
        | .ok av =>
          match pB b with
          | .error e => .error (e.or ⟨c, "missing argument"⟩)
          | .ok bv => .ok (instruction av bv)
    | (_, none) => .error ⟨fragment, "expected two arguments"⟩

/-- Source: `fn parse3` (its count error really is the string
`expected two argument`). -/
def parse3 {α β γ : Type} (pA : Fragment → Except Error α) (pB : Fragment → Except Error β)
    (pC : Fragment → Except Error γ) (fragment opcode : Fragment)
    (instruction : α → β → γ → Instruction) : Except Error Instruction :=
  let fragment := fragment.trim
  if fragment.len = 0 then .error ⟨opcode, "expected two argument"⟩
  else
    match fragment.splitOn ',' with
    | (a, some (c1, bb)) =>
      match bb.splitOn ',' with
      | (b, some (c2, c)) =>
        match (c.splitOn ',').2 with
        | some _ => .error ⟨fragment, "expected two argument"⟩
        | none =>
          match pA a with
          | .error e => .error (e.or ⟨c1, "missing argument"⟩)
          | .ok av =>
            match pB b with
            | .error e => .error (e.or ⟨c1, "missing argument"⟩)
            | .ok bv =>
              match pC c with
              | .error e => .error (e.or ⟨c2, "missing argument"⟩)
              | .ok cv => .ok (instruction av bv cv)
      | (_, none) => .error ⟨fragment, "expected two argument"⟩
    | (_, none) => .error ⟨fragment, "expected two argument"⟩

/-- The comma-separated loop of `fn parse_data`.  `fuel` bounds the number of
iterations; each iteration consumes one comma of the remaining fragment, so
`parse_data` supplies `args.len + 1`, which is always sufficient, and the
fuel-exhausted arm is unreachable. -/
def parse_data_go : Nat → Fragment → Fragment → List Number → Except Error (List Number)
  | 0, args, _, _ => .error ⟨args, "missing byte"⟩
  | fuel + 1, args, if_missing, bytes =>
    match args.splitOn ',' with
    | (a, some (c, rest)) =>
      let a := a.trim
      if a.len = 0 then .error ⟨c, "missing byte"⟩
      else
        match Number.parse a with
        | .error e => .error e
        | .ok num =>
          if num.value ≥ 256 then .error ⟨a, "byte value too large"⟩
          else parse_data_go fuel rest c (bytes ++ [num])
    | (last, none) =>
      let last := last.trim
      if last.len = 0 then .error ⟨if_missing, "missing byte"⟩
      else
        match Number.parse last with
        | .error e => .error e
        | .ok num =>
          if num.value ≥ 256 then .error ⟨last, "byte value too large"⟩
          else .ok (bytes ++ [num])

/-- Source: `fn parse_data` (`db` directive). -/
def parse_data (args opcode : Fragment) : Except Error Instruction :=
  match parse_data_go (args.len + 1) args.trim opcode [] with
  | .error e => .error e
  | .ok bytes => .ok (.Bytes bytes)

/-- Source: `fn matches`: case-insensitive mnemonic comparison. -/
def matchesMnemonic (fragment : Fragment) (s : String) : Bool :=
  fragment.asStr.map Char.toLower = s.toList.map Char.toLower

/-- Source: `fn parse_instruction`: split off the mnemonic at the first
space and dispatch, in the source's order. -/
def parse_with (opcode args : Fragment) : Except Error (Option Instruction) :=
  if matchesMnemonic opcode "nop" then (parse0 args opcode .Nop).map some
    else if matchesMnemonic opcode "ret" then (parse0 args opcode .Ret).map some
    else if matchesMnemonic opcode "wait" then (parse0 args opcode .Wait).map some
    else if matchesMnemonic opcode "poll" then (parse0 args opcode .Poll).map some
    else if matchesMnemonic opcode "not" then (parse1 Register.parse args opcode .Not).map some
    else if matchesMnemonic opcode "neg" then (parse1 Register.parse args opcode .Neg).map some
    else if matchesMnemonic opcode "pop" then (parse1 Register.parse args opcode .Pop).map some
    else if matchesMnemonic opcode "push" then (parse1 Value.parse args opcode .Push).map some
    else if matchesMnemonic opcode "jmp" then (parse1 Value.parse args opcode .Jmp).map some
    else if matchesMnemonic opcode "call" then (parse1 Value.parse args opcode .Call).map some
    else if matchesMnemonic opcode "mov" then (parse2 Register.parse Value.parse args opcode .Mov).map some
    else if matchesMnemonic opcode "add" then (parse2 Register.parse Value.parse args opcode .Add).map some
    else if matchesMnemonic opcode "sub" then (parse2 Register.parse Value.parse args opcode .Sub).map some
    else if matchesMnemonic opcode "xor" then (parse2 Register.parse Value.parse args opcode .Xor).map some
    else if matchesMnemonic opcode "and" then (parse2 Register.parse Value.parse args opcode .And).map some
    else if matchesMnemonic opcode "or" then (parse2 Register.parse Value.parse args opcode .Or).map some
    else if matchesMnemonic opcode "shl" then (parse2 Register.parse Value.parse args opcode .Shl).map some
    else if matchesMnemonic opcode "shr" then (parse2 Register.parse Value.parse args opcode .Shr).map some
    else if matchesMnemonic opcode "cmp" then (parse2 Register.parse Value.parse args opcode .Cmp).map some
    else if matchesMnemonic opcode "load" then (parse2 Register.parse Address.parse args opcode .Load).map some
    else if matchesMnemonic opcode "loadw" then (parse2 Register.parse Address.parse args opcode .Loadw).map some
    else if matchesMnemonic opcode "store" then (parse2 Value.parse Address.parse args opcode .Store).map some
    else if matchesMnemonic opcode "storew" then (parse2 Value.parse Address.parse args opcode .Storew).map some
    else if matchesMnemonic opcode "jez" then (parse2 Register.parse Constant.parse args opcode .Jez).map some
    else if matchesMnemonic opcode "jnz" then (parse2 Register.parse Constant.parse args opcode .Jnz).map some
    else if matchesMnemonic opcode "jl" then (parse2 Register.parse Constant.parse args opcode .Jl).map some
    else if matchesMnemonic opcode "jg" then (parse2 Register.parse Constant.parse args opcode .Jg).map some
    else if matchesMnemonic opcode "jle" then (parse2 Register.parse Constant.parse args opcode .Jle).map some
    else if matchesMnemonic opcode "jge" then (parse2 Register.parse Constant.parse args opcode .Jge).map some
    else if matchesMnemonic opcode "read" then (parse3 DiskId.parse Constant.parse Constant.parse args opcode .Read).map some
    else if matchesMnemonic opcode "write" then (parse3 DiskId.parse Constant.parse Constant.parse args opcode .Write).map some
    else if matchesMnemonic opcode "db" then (parse_data args opcode).map some
    else .error ⟨opcode, "invalid instruction"⟩

def parse_instruction (fragment : Fragment) : Except Error (Option Instruction) :=
  let fragment := fragment.trim
  if fragment.len = 0 then .ok none
  else
    let oa := fragment.splitOn ' '
    let opcode := oa.1.trim
    let args := match oa.2 with
      | some (_, a) => a
      | none => fragment.takeStart 0
    parse_with opcode args

/-- Source: `fn parse_line`: strip the comment, split off an optional
`label:` prefix, then parse the instruction. -/
def parse_line (fragment : Fragment) : Except Error Line :=
  let fragment := (fragment.splitOn ';').1
  match fragment.splitOn ':' with
  | (label, some (colon, instruction)) =>
    let label := label.trim
    if label.len = 0 then .error ⟨colon, "missing label"⟩
    else if ¬ is_identifier label.asStr then .error ⟨label, "invalid label"⟩
    else
      match parse_instruction instruction with
      | .error e => .error e
      | .ok i => .ok { label := some label.asStr, instruction := i }
  | (instruction, none) =>
    match parse_instruction instruction with
    | .error e => .error e
    | .ok i => .ok { label := none, instruction := i }

/-- Every error message the assembler's parsing and assembling code can
construct, read off the source: the claimed fixed set plus `invalid disk`
(from `ParseArg for DiskId`), the concrete argument-count strings, and the
`expected two argument` string that `parse3` really uses. -/
def msgSet : List String :=
  ["invalid instruction", "expected no arguments", "expected one argument",
   "expected two arguments", "expected two argument", "missing argument",
   "invalid register", "invalid disk", "invalid number", "invalid name",
   "invalid constant", "invalid value", "missing byte", "byte value too large",
   "missing offset", "missing label", "invalid label", "undefined label"]

/-- The fixed message set stated by claim C8, with its `expected N arguments`
placeholder read generously (singular and plural forms for every argument
count the assembler has). -/
def claimC8Messages : List String :=
  ["invalid instruction", "expected no arguments", "expected one argument",
   "expected one arguments", "expected two arguments", "expected three arguments",
   "missing argument", "invalid register", "invalid number", "invalid name",
   "invalid constant", "invalid value", "missing byte", "byte value too large",
   "missing offset", "missing label", "invalid label", "undefined label"]

/-- Concrete input for claim C8: a `read` whose disk argument is `2`. -/
def fragC8 : Fragment := Fragment.new "read 2,0,0".toList 1

/-- The error `parse_line` produces on `fragC8`: the span of the `2` and the
message `invalid disk`. -/
def errC8 : Error := ⟨⟨"read 2,0,0".toList, 1, 5, 6⟩, "invalid disk"⟩

end Asm

namespace Tcpu

/-- The opcode families listed by claim C1 (the §4.1 encoding families;
the claim's list does not contain the `Halt` opcode `0x04`). -/
def claimC1Listed (b : Nat) : Prop :=
  b ≤ 3 ∨ (16 ≤ b ∧ b ≤ 23) ∨ (32 ≤ b ∧ b ≤ 39) ∨ (48 ≤ b ∧ b ≤ 55) ∨
  (64 ≤ b ∧ b ≤ 111) ∨ (128 ≤ b ∧ b ≤ 136) ∨ (144 ≤ b ∧ b ≤ 146) ∨
  (148 ≤ b ∧ b ≤ 150) ∨ (152 ≤ b ∧ b ≤ 154) ∨ (156 ≤ b ∧ b ≤ 158) ∨
  (160 ≤ b ∧ b ≤ 165) ∨ b = 240 ∨ b = 241 ∨ b = 248 ∨ b = 249

instance claimC1Listed.decidable : DecidablePred claimC1Listed := fun b => by
  unfold claimC1Listed; infer_instance

/-- The amended opcode list for claim C1: the claim's families together with
the `Halt` opcode `0x04`, which the decoder also recognizes. -/
def claimC1Amended (b : Nat) : Prop := b = 4 ∨ claimC1Listed b

instance claimC1Amended.decidable : DecidablePred claimC1Amended := fun b => by
  unfold claimC1Amended; infer_instance

/-- Sequence of event-queue pushes. -/
def pushAll (q : EventQueue) (es : List Event) : EventQueue :=
  es.foldl EventQueue.push q

/-- Abstraction of the circular buffer: the queued events, oldest first. -/
def toList (q : EventQueue) : List Event :=
  (List.range q.len).map fun i => q.items ((q.head + i) % EVENT_QUEUE_CAPACITY)

/-- Representation invariant of `EventQueue`, established by `new` and kept
by `push` and `pop`. -/
def QueueInv (q : EventQueue) : Prop :=
  q.head < EVENT_QUEUE_CAPACITY ∧ q.len ≤ EVENT_QUEUE_CAPACITY

/-- Pop repeatedly, bounded by a fuel counter. -/
def drainAux : Nat → EventQueue → List Event
  | 0, _ => []
  | n + 1, q =>
    match (q.pop).1 with
    | some e => e :: drainAux n (q.pop).2
    | none => []

/-- Every event obtained by popping the queue until it is empty, in pop order. -/
def drain (q : EventQueue) : List Event := drainAux q.len q

/-- An emulator whose memory is the given byte list at address 0 (zero
elsewhere), as a host would load a program image. -/
def emuOf (bytes : List Nat) : Emulator :=
  { Emulator.new with memory := fun a => (bytes.drop a).headD 0 }

/-- Concrete state for claim C1: every memory byte is the unlisted opcode 5. -/
def emuC1 : Emulator := { Emulator.new with memory := fun _ => 5 }

/-- Concrete state whose first opcode is `Halt` (`0x04`). -/
def emuHalt : Emulator := emuOf [4]

/-- Concrete halted state for claim C9. -/
def emuHalted : Emulator := { Emulator.new with state := .Halted }

/-- A disk slot holding an idle disk. -/
def slotIdle : DiskSlot := { data := fun _ => 0, disk := .Present false 7 none }

/-- A disk slot holding a disk with a running read. -/
def slotBusy : DiskSlot :=
  { data := fun _ => 0, disk := .Present false 7 (some (.Reading 0 0 DISK_OP_SIZE CYCLES_PER_BYTE)) }

/-- Emulator with an idle disk in slot 0 and slot 1 empty. -/
def emuDiskIdle : Emulator :=
  { Emulator.new with disk_slots := fun d =>
      match d with
      | .D0 => slotIdle
      | .D1 => { data := fun _ => 0, disk := .Missing } }

/-- Emulator with a busy disk in slot 0 and slot 1 empty. -/
def emuDiskBusy : Emulator :=
  { Emulator.new with disk_slots := fun d =>
      match d with
      | .D0 => slotBusy
      | .D1 => { data := fun _ => 0, disk := .Missing } }

end Tcpu

namespace Tcpu

theorem length_toList (q : EventQueue) : (toList q).length = q.len := by
  simp [toList]

theorem queueInv_new : QueueInv EventQueue.new := by
  constructor <;> simp [EventQueue.new, EVENT_QUEUE_CAPACITY]

theorem queueInv_push (q : EventQueue) (e : Event) (h : QueueInv q) :
    QueueInv (q.push e) := by
  obtain ⟨h1, h2⟩ := h
  unfold QueueInv EventQueue.push
  unfold EVENT_QUEUE_CAPACITY at *
  split <;> constructor <;> simp <;> omega

theorem queueInv_pop (q : EventQueue) (h : QueueInv q) : QueueInv (q.pop).2 := by
  obtain ⟨h1, h2⟩ := h
  unfold QueueInv EventQueue.pop
  unfold EVENT_QUEUE_CAPACITY at *
  split <;> constructor <;> simp <;> omega

theorem len_push (q : EventQueue) (e : Event) (h : QueueInv q) :
    (q.push e).len = min (q.len + 1) EVENT_QUEUE_CAPACITY := by
  obtain ⟨h1, h2⟩ := h
  unfold EventQueue.push
  unfold EVENT_QUEUE_CAPACITY at *
  split <;> simp <;> omega

theorem len_pop (q : EventQueue) : (q.pop).2.len = q.len - 1 := by
  unfold EventQueue.pop
  split <;> simp_all

theorem pop_fst (q : EventQueue) (hInv : QueueInv q) (h : q.len ≠ 0) :
    (q.pop).1 = some (q.items q.head) := by
  obtain ⟨h1, h2⟩ := hInv
  unfold EventQueue.pop
  unfold EVENT_QUEUE_CAPACITY at *
  rw [if_neg h]
  simp only
  rw [Nat.mod_eq_of_lt h1]

theorem toList_cons (q : EventQueue) (hInv : QueueInv q) (h : q.len ≠ 0) :
    toList q = q.items q.head :: toList (q.pop).2 := by
  obtain ⟨h1, h2⟩ := hInv
  unfold toList EventQueue.pop
  unfold EVENT_QUEUE_CAPACITY at *
  rw [if_neg h]
  obtain ⟨k, hk⟩ : ∃ k, q.len = k + 1 := ⟨q.len - 1, by omega⟩
  rw [hk]
  simp only [List.range_succ_eq_map, List.map_cons, List.map_map, Nat.add_sub_cancel]
  congr 1
  · congr 1
    omega
  · apply List.map_congr_left
    intro i _
    simp only [Function.comp_apply]
    congr 1
    omega

theorem toList_push_lt (q : EventQueue) (e : Event) (hInv : QueueInv q)
    (h : q.len < EVENT_QUEUE_CAPACITY) : toList (q.push e) = toList q ++ [e] := by
  obtain ⟨h1, h2⟩ := hInv
  unfold toList EventQueue.push
  unfold EVENT_QUEUE_CAPACITY at *
  rw [if_neg (by omega)]
  simp only [List.range_succ, List.map_append, List.map_cons, List.map_nil]
  congr 1
  · apply List.map_congr_left
    intro i hi
    simp only [List.mem_range] at hi
    apply Function.update_noteq
    omega
  · rw [Function.update_same]

theorem push_full_eq (q : EventQueue) (e : Event) (hInv : QueueInv q)
    (h : q.len = EVENT_QUEUE_CAPACITY) : q.push e = ((q.pop).2).push e := by
  obtain ⟨h1, h2⟩ := hInv
  unfold EventQueue.push EventQueue.pop
  unfold EVENT_QUEUE_CAPACITY at *
  rw [if_neg (show q.len ≠ 0 by omega)]
  simp only
  rw [if_pos h, if_neg (show q.len - 1 ≠ 64 by omega)]
  have hidx : (q.head + q.len) % 64 = ((q.head + 1) % 64 + (q.len - 1)) % 64 := by omega
  rw [hidx]
  have hlen : q.len - 1 + 1 = q.len := by omega
  rw [hlen]

theorem queueInv_pushAll (q : EventQueue) (es : List Event) (h : QueueInv q) :
    QueueInv (pushAll q es) := by
  induction es generalizing q with
  | nil => exact h
  | cons e es ih => exact ih _ (queueInv_push q e h)

theorem toList_pushAll (es : List Event) : ∀ q : EventQueue, QueueInv q →
    toList (pushAll q es) = (toList q ++ es).drop ((q.len + es.length) - 64) ∧
    (pushAll q es).len = min (q.len + es.length) 64 := by
  induction es with
  | nil =>
    intro q hInv
    have hcap : q.len ≤ 64 := hInv.2
    simp only [pushAll, List.foldl_nil, List.append_nil, List.length_nil, Nat.add_zero]
    rw [show q.len - 64 = 0 from by omega]
    exact ⟨rfl, by omega⟩
  | cons e es ih =>
    intro q hInv
    have hcap : q.len ≤ 64 := hInv.2
    have hInv' := queueInv_push q e hInv
    obtain ⟨ihList, ihLen⟩ := ih (q.push e) hInv'
    rcases Nat.lt_or_ge q.len 64 with hlt | hge
    · have hpl : (q.push e).len = q.len + 1 := by
        rw [len_push q e hInv]
        show min (q.len + 1) 64 = q.len + 1
        omega
      have ht : toList (q.push e) = toList q ++ [e] := toList_push_lt q e hInv hlt
      constructor
      · show toList (pushAll (q.push e) es) = _
        rw [ihList, ht, hpl]
        rw [show q.len + (e :: es).length - 64 = q.len + 1 + es.length - 64 from by
          simp only [List.length_cons]; omega]
        rw [List.append_assoc]
        simp only [List.singleton_append]
      · show (pushAll (q.push e) es).len = _
        rw [ihLen, hpl]
        simp only [List.length_cons]
        show min (q.len + 1 + es.length) 64 = min (q.len + (es.length + 1)) 64
        omega
    · have h64 : q.len = 64 := by omega
      have hne : q.len ≠ 0 := by omega
      have hpl : (q.push e).len = 64 := by
        rw [len_push q e hInv]
        show min (q.len + 1) 64 = 64
        omega
      have hcons := toList_cons q hInv hne
      have htail : toList (q.push e) = toList (q.pop).2 ++ [e] := by
        rw [push_full_eq q e hInv h64]
        apply toList_push_lt (q.pop).2 e (queueInv_pop q hInv)
        show (q.pop).2.len < 64
        rw [len_pop]
        omega
      constructor
      · show toList (pushAll (q.push e) es) = _
        rw [ihList, htail, hpl]
        rw [show 64 + es.length - 64 = es.length from by omega]
        rw [show q.len + (e :: es).length - 64 = es.length + 1 from by
          simp only [List.length_cons]; omega]
        rw [hcons]
        simp only [List.cons_append, List.drop_succ_cons, List.append_assoc,
          List.singleton_append, List.nil_append]
      · show (pushAll (q.push e) es).len = _
        rw [ihLen, hpl]
        simp only [List.length_cons]
        show min (64 + es.length) 64 = min (q.len + (es.length + 1)) 64
        omega

theorem drainAux_eq (n : Nat) : ∀ q : EventQueue, QueueInv q → q.len = n →
    drainAux n q = toList q := by
  induction n with
  | zero =>
    intro q _ hl
    unfold drainAux toList
    rw [hl]
    simp
  | succ n ih =>
    intro q hInv hl
    have hne : q.len ≠ 0 := by omega
    unfold drainAux
    rw [pop_fst q hInv hne, toList_cons q hInv hne]
    show q.items q.head :: drainAux n (q.pop).2 = q.items q.head :: toList (q.pop).2
    congr 1
    exact ih (q.pop).2 (queueInv_pop q hInv) (by rw [len_pop]; omega)

theorem drain_eq_toList (q : EventQueue) (hInv : QueueInv q) : drain q = toList q :=
  drainAux_eq q.len q hInv rfl

/-- C5: for every sequence of pushes starting from the empty event queue,
the length never exceeds 64; the queue retains exactly the most recent
`min (64, total)` events; and popping the queue dry returns them in FIFO
order (oldest of the retained events first). -/
theorem c5_event_queue_bound_fifo : ∀ es : List Event,
    (pushAll EventQueue.new es).len ≤ 64 ∧
    drain (pushAll EventQueue.new es) = es.drop (es.length - 64) ∧
    (drain (pushAll EventQueue.new es)).length = min es.length 64 := by
  intro es
  obtain ⟨hList, hLen⟩ := toList_pushAll es EventQueue.new queueInv_new
  have hInv := queueInv_pushAll EventQueue.new es queueInv_new
  have hdrain := drain_eq_toList _ hInv
  have hnewlen : EventQueue.new.len = 0 := rfl
  rw [hnewlen] at hList hLen
  have hnew : toList EventQueue.new = [] := by simp [toList, EventQueue.new]
  rw [hnew] at hList
  simp only [List.nil_append, Nat.zero_add] at hList hLen
  refine ⟨?_, ?_, ?_⟩
  · rw [hLen]
    omega
  · rw [hdrain, hList]
  · rw [hdrain, hList, List.length_drop]
    omega

theorem registers_get_set (regs : Registers) (r : Register) (v : Nat) :
    (regs.set r v).get r = v := by
  cases r <;> rfl

theorem registers_set_s_of_ne (regs : Registers) (r : Register) (v : Nat) (h : r ≠ .S) :
    (regs.set r v).s = regs.s := by
  cases r <;> try rfl
  exact absurd rfl h

/-- C4: `Cmp a,b` writes 1 / 0 / 0xFFFF into register `a` according to the
unsigned comparison, and each conditional jump replaces the instruction
pointer by its evaluated target exactly when register `a` holds the tabled
value (`Jez`: 0, `Jnz`: nonzero, `Jl`: 0xFFFF, `Jg`: 1, `Jle`: not 1,
`Jge`: not 0xFFFF), otherwise leaving the post-decode pointer in place. -/
theorem c4_cmp_and_conditional_jumps (s : Emulator) (a : Register) (b d : Operand) :
    ((apply_instruction s (.Cmp a b)).registers.get a =
      if evalRegister s a > evalOperand s b then 1
      else if evalRegister s a = evalOperand s b then 0 else 65535) ∧
    ((apply_instruction s (.Jez a d)).instruction_pointer =
      if evalRegister s a = 0 then evalOperand s d else s.instruction_pointer) ∧
    ((apply_instruction s (.Jnz a d)).instruction_pointer =
      if evalRegister s a ≠ 0 then evalOperand s d else s.instruction_pointer) ∧
    ((apply_instruction s (.Jl a d)).instruction_pointer =
      if evalRegister s a = 65535 then evalOperand s d else s.instruction_pointer) ∧
    ((apply_instruction s (.Jg a d)).instruction_pointer =
      if evalRegister s a = 1 then evalOperand s d else s.instruction_pointer) ∧
    ((apply_instruction s (.Jle a d)).instruction_pointer =
      if evalRegister s a ≠ 1 then evalOperand s d else s.instruction_pointer) ∧
    ((apply_instruction s (.Jge a d)).instruction_pointer =
      if evalRegister s a ≠ 65535 then evalOperand s d else s.instruction_pointer) := by
  refine ⟨?_, ?_, ?_, ?_, ?_, ?_, ?_⟩
  · simp only [apply_instruction]
    exact registers_get_set ..
  · by_cases h : evalRegister s a = 0 <;> simp [apply_instruction, h]
  · by_cases h : evalRegister s a = 0 <;> simp [apply_instruction, h]
  · by_cases h : evalRegister s a = 65535 <;> simp [apply_instruction, h]
  · by_cases h : evalRegister s a = 1 <;> simp [apply_instruction, h]
  · by_cases h : evalRegister s a = 1 <;> simp [apply_instruction, h]
  · by_cases h : evalRegister s a = 65535 <;> simp [apply_instruction, h]

/-- C2: `Read`/`Write` on a disk slot: no disk — only a `(4/5, 1)` event is
queued; disk idle — a running op with `remaining = 4096`, `delay = 32` is
installed and the idle counter zeroed (`Write` also sets the modified flag),
with no event; disk busy — only a `(4/5, 2)` event is queued and the running
op, flags, memory and disk contents stay untouched. -/
theorem c2_disk_instruction_cases (s : Emulator) (id : DiskId) (mo dp : Operand) :
    ((s.disk_slots id).disk = .Missing →
      apply_instruction s (.Read id mo dp) =
        { s with event_queue := s.event_queue.push ⟨(match id with | .D0 => 4 | .D1 => 5), 1⟩ } ∧
      apply_instruction s (.Write id mo dp) =
        { s with event_queue := s.event_queue.push ⟨(match id with | .D0 => 4 | .D1 => 5), 1⟩ }) ∧
    (∀ md it, (s.disk_slots id).disk = .Present md it none →
      apply_instruction s (.Read id mo dp) =
        withDiskState s id
          (.Present md 0 (some (.Reading (evalOperand s dp * 16) (evalOperand s mo) 4096 32))) ∧
      apply_instruction s (.Write id mo dp) =
        withDiskState s id
          (.Present true 0 (some (.Writing (evalOperand s dp * 16) (evalOperand s mo) 4096 32)))) ∧
    (∀ md it op, (s.disk_slots id).disk = .Present md it (some op) →
      apply_instruction s (.Read id mo dp) =
        { s with event_queue := s.event_queue.push ⟨(match id with | .D0 => 4 | .D1 => 5), 2⟩ } ∧
      apply_instruction s (.Write id mo dp) =
        { s with event_queue := s.event_queue.push ⟨(match id with | .D0 => 4 | .D1 => 5), 2⟩ }) := by
  refine ⟨fun h => ?_, fun md it h => ?_, fun md it op h => ?_⟩ <;>
    cases id <;>
      simp [apply_instruction, h, Event.disk_finished, DISK_OP_SIZE, CYCLES_PER_BYTE,
        withDiskState]

/-- Witness for C2 at concrete states: an idle disk accepts the op, a busy
disk reports `(4, 2)`, an empty slot reports `(4, 1)`. -/
theorem c2_witness :
    apply_instruction emuDiskIdle (.Read .D0 (.Word 0) (.Word 1)) =
      withDiskState emuDiskIdle .D0
        (.Present false 0 (some (.Reading (evalOperand emuDiskIdle (.Word 1) * 16)
          (evalOperand emuDiskIdle (.Word 0)) 4096 32))) ∧
    apply_instruction emuDiskBusy (.Read .D0 (.Word 0) (.Word 1)) =
      { emuDiskBusy with event_queue := emuDiskBusy.event_queue.push ⟨4, 2⟩ } ∧
    apply_instruction Emulator.new (.Read .D0 (.Word 0) (.Word 1)) =
      { Emulator.new with event_queue := Emulator.new.event_queue.push ⟨4, 1⟩ } :=
  ⟨((c2_disk_instruction_cases emuDiskIdle .D0 (.Word 0) (.Word 1)).2.1 false 7 rfl).1,
   ((c2_disk_instruction_cases emuDiskBusy .D0 (.Word 0) (.Word 1)).2.2 false 7
      (.Reading 0 0 DISK_OP_SIZE CYCLES_PER_BYTE) rfl).1,
   ((c2_disk_instruction_cases Emulator.new .D0 (.Word 0) (.Word 1)).1 rfl).1⟩

/-- C10: `insert_disk` on an occupied slot changes nothing at all; on an
empty slot it installs a disk with `modified = false`, idle counter
`u64::MAX`, and no running operation. -/
theorem c10_insert_disk (s : Emulator) (id : DiskId) :
    ((s.disk_slots id).disk ≠ .Missing → insert_disk id s = s) ∧
    ((s.disk_slots id).disk = .Missing →
      insert_disk id s = withDiskState s id (.Present false 18446744073709551615 none)) := by
  constructor
  · intro h
    cases hd : (s.disk_slots id).disk with
    | Missing => exact absurd hd h
    | Present m i o => simp [insert_disk, hd]
  · intro h
    simp [insert_disk, h, U64_MAX, withDiskState]

/-- Witness for C10: inserting into the occupied slot 0 of `emuDiskIdle` is
the identity; inserting into the empty slot 0 of a fresh emulator installs
the fresh disk state. -/
theorem c10_witness :
    insert_disk .D0 emuDiskIdle = emuDiskIdle ∧
    insert_disk .D0 Emulator.new =
      withDiskState Emulator.new .D0 (.Present false 18446744073709551615 none) :=
  ⟨(c10_insert_disk emuDiskIdle .D0).1 (by decide),
   (c10_insert_disk Emulator.new .D0).2 rfl⟩

theorem load_word_store_word (m : Nat → Nat) (addr v : Nat) (hv : v < 65536) :
    load_word (store_word m addr v) addr = v := by
  unfold load_word store_word store load MEMORY_SIZE
  rw [Function.update_noteq (show addr % 65536 ≠ (addr + 1) % 65536 from by omega),
    Function.update_same, Function.update_same]
  omega

/-- C3 (amended): for every 16-bit value `v`, destination register `r`
other than `S`, and in-range initial stack pointer, `Push v; Pop r` restores
`S` and leaves `v` in `r` (when `r = S` the pop's loaded word overwrites the
restored stack pointer — see the counterexample). -/
theorem c3_push_pop_balance (s : Emulator) (v : Nat) (r : Register)
    (hv : v < 65536) (hs : s.registers.s < 65536) (hr : r ≠ .S) :
    (apply_instruction (apply_instruction s (.Push (.Word v))) (.Pop r)).registers.s
        = s.registers.s ∧
    (apply_instruction (apply_instruction s (.Push (.Word v))) (.Pop r)).registers.get r = v := by
  have h1 : apply_instruction s (.Push (.Word v)) =
      { s with memory := store_word s.memory s.registers.s v,
               registers := { s.registers with s := (s.registers.s + 65536 - 2) % 65536 } } := rfl
  rw [h1]
  have h2 : apply_instruction
      { s with memory := store_word s.memory s.registers.s v,
               registers := { s.registers with s := (s.registers.s + 65536 - 2) % 65536 } }
      (.Pop r) =
      { s with memory := store_word s.memory s.registers.s v,
               registers := Registers.set
                 { s.registers with s := ((s.registers.s + 65536 - 2) % 65536 + 2) % 65536 } r
                 (load_word (store_word s.memory s.registers.s v)
                   (((s.registers.s + 65536 - 2) % 65536 + 2) % 65536)) } := rfl
  rw [h2]
  rw [show ((s.registers.s + 65536 - 2) % 65536 + 2) % 65536 = s.registers.s from by omega]
  constructor
  · rw [registers_set_s_of_ne _ r _ hr]
  · rw [registers_get_set, load_word_store_word s.memory s.registers.s v hv]

/-- Counterexample for C3 as stated: with `S` initially 0, `Push 5; Pop S`
leaves `S = 5`, not the initial stack pointer. -/
theorem c3_counterexample :
    (apply_instruction (apply_instruction Emulator.new (.Push (.Word 5))) (.Pop .S)).registers.s ≠
      Emulator.new.registers.s := by
  decide

/-- Witness for C3 at a concrete input: `Push 7; Pop A` from a fresh state. -/
theorem c3_witness :
    (apply_instruction (apply_instruction Emulator.new (.Push (.Word 7))) (.Pop .A)).registers.s
        = Emulator.new.registers.s ∧
    (apply_instruction (apply_instruction Emulator.new (.Push (.Word 7))) (.Pop .A)).registers.get .A
        = 7 :=
  c3_push_pop_balance Emulator.new 7 .A (by omega) (by decide) (by decide)

set_option maxHeartbeats 1000000 in
theorem decode_with_invalid (m : Nat → Nat) (x ip1 : Nat)
    (hb : ¬ claimC1Amended x) :
    decode_with m x ip1 = (.Invalid, ip1) := by
  simp only [claimC1Amended, claimC1Listed, not_or] at hb
  obtain ⟨g4, g3, g16, g32, g48, g64, g128, g144, g148, g152, g156, g160, g240, g241, g248,
    g249⟩ := hb
  unfold decode_with
  rw [if_neg (show ¬ (x = 0) from by omega)]
  rw [if_neg (show ¬ (x = 1) from by omega)]
  rw [if_neg (show ¬ (x = 2) from by omega)]
  rw [if_neg (show ¬ (x = 3) from by omega)]
  rw [if_neg (show ¬ (x = 4) from by omega)]
  rw [if_neg (show ¬ (x = 128) from by omega)]
  rw [if_neg (show ¬ (x = 129) from by omega)]
  rw [if_neg (show ¬ (x = 130) from by omega)]
  rw [if_neg (show ¬ (x = 131) from by omega)]
  rw [if_neg (show ¬ (x = 132) from by omega)]
  rw [if_neg (show ¬ (x = 133) from by omega)]
  rw [if_neg (show ¬ (x = 134) from by omega)]
  rw [if_neg (show ¬ (x = 135) from by omega)]
  rw [if_neg (show ¬ (x = 136) from by omega)]
  rw [if_neg (show ¬ (144 ≤ x ∧ x ≤ 146) from by omega)]
  rw [if_neg (show ¬ (148 ≤ x ∧ x ≤ 150) from by omega)]
  rw [if_neg (show ¬ (152 ≤ x ∧ x ≤ 154) from by omega)]
  rw [if_neg (show ¬ (156 ≤ x ∧ x ≤ 158) from by omega)]
  rw [if_neg (show ¬ (16 ≤ x ∧ x ≤ 23) from by omega)]
  rw [if_neg (show ¬ (32 ≤ x ∧ x ≤ 39) from by omega)]
  rw [if_neg (show ¬ (48 ≤ x ∧ x ≤ 55) from by omega)]
  rw [if_neg (show ¬ (64 ≤ x ∧ x ≤ 79) from by omega)]
  rw [if_neg (show ¬ (80 ≤ x ∧ x ≤ 95) from by omega)]
  rw [if_neg (show ¬ (96 ≤ x ∧ x ≤ 111) from by omega)]
  rw [if_neg (show ¬ (x = 160) from by omega)]
  rw [if_neg (show ¬ (x = 161) from by omega)]
  rw [if_neg (show ¬ (x = 162) from by omega)]
  rw [if_neg (show ¬ (x = 163) from by omega)]
  rw [if_neg (show ¬ (x = 164) from by omega)]
  rw [if_neg (show ¬ (x = 165) from by omega)]
  rw [if_neg (show ¬ (x = 240) from by omega)]
  rw [if_neg (show ¬ (x = 241) from by omega)]
  rw [if_neg (show ¬ (x = 248) from by omega)]
  rw [if_neg (show ¬ (x = 249) from by omega)]

theorem decode_invalid (m : Nat → Nat) (ip : Nat)
    (hb : ¬ claimC1Amended (load m ip)) :
    decode_instruction m ip = (.Invalid, (ip + 1) % 65536) :=
  decode_with_invalid m (load m ip) ((ip + 1) % 65536) hb

theorem screen_phase_no_refresh (s : Emulator) (h : s.time_to_refresh ≠ 0) :
    screen_phase s = s := by
  unfold screen_phase
  rw [if_neg h]

theorem waiting_phase_not_waiting (s : Emulator) (h : s.state ≠ .Waiting) :
    waiting_phase s = s := by
  unfold waiting_phase
  rw [if_neg h]

theorem execute_phase_not_running (s : Emulator) (h : s.state ≠ .Running) :
    execute_phase s = s := by
  unfold execute_phase
  rw [if_neg h]

theorem execute_phase_invalid (s : Emulator) (v : Nat) (hrun : s.state = .Running)
    (hdec : decode_instruction s.memory s.instruction_pointer = (.Invalid, v)) :
    execute_phase s = { s with instruction_pointer := v } := by
  unfold execute_phase
  rw [if_pos hrun, hdec]
  rfl

theorem disk_step_no_op (d : DiskId) (s : Emulator)
    (h : ((s.disk_slots d).disk).runningOp = none) :
    (disk_step d s).memory = s.memory ∧
    (disk_step d s).event_queue = s.event_queue ∧
    (disk_step d s).registers = s.registers ∧
    (disk_step d s).instruction_pointer = s.instruction_pointer ∧
    (disk_step d s).state = s.state ∧
    (disk_step d s).time_to_refresh = s.time_to_refresh ∧
    (disk_step d s).cycles = s.cycles ∧
    (∀ d', ((disk_step d s).disk_slots d').disk.runningOp =
      ((s.disk_slots d').disk).runningOp) := by
  cases hd : (s.disk_slots d).disk with
  | Missing =>
    have hds : disk_step d s =
        { s with disk_slots := Function.update s.disk_slots d (s.disk_slots d) } := by
      simp [disk_step, update_disk, hd]
    rw [hds, Function.update_eq_self]
    exact ⟨rfl, rfl, rfl, rfl, rfl, rfl, rfl, fun _ => rfl⟩
  | Present md it op =>
    cases op with
    | some o => rw [hd] at h; exact absurd h (by simp [SlotDisk.runningOp])
    | none =>
      have hds : disk_step d s = withDiskState s d (.Present md (satAdd1 it) none) := by
        simp [disk_step, update_disk, withDiskState, hd]
      rw [hds]
      unfold withDiskState
      refine ⟨rfl, rfl, rfl, rfl, rfl, rfl, rfl, fun d' => ?_⟩
      rcases eq_or_ne d' d with rfl | hne
      · simp [Function.update_same, SlotDisk.runningOp, hd]
      · simp [Function.update_noteq hne]

/-- C1 (amended): an opcode byte outside the §4.1 families *and* outside the
`Halt` opcode `0x04` decodes as `Invalid`; a cycle executing it (no screen
refresh due, no disk transfer in flight) leaves registers, memory, CPU
state and event queue unchanged and advances the instruction pointer by one
byte with wrap-around. -/
theorem c1_invalid_opcode_noop (s : Emulator) (b : Nat)
    (hrun : s.state = .Running)
    (httr : s.time_to_refresh ≠ 0)
    (h0 : ((s.disk_slots .D0).disk).runningOp = none)
    (h1 : ((s.disk_slots .D1).disk).runningOp = none)
    (hmem : s.memory (s.instruction_pointer % 65536) = b)
    (hb : ¬ claimC1Amended b) :
    (decode_instruction s.memory s.instruction_pointer).1 = Instruction.Invalid ∧
    (cycle s).registers = s.registers ∧
    (cycle s).memory = s.memory ∧
    (cycle s).state = s.state ∧
    (cycle s).event_queue = s.event_queue ∧
    (cycle s).instruction_pointer = (s.instruction_pointer + 1) % 65536 := by
  have hload : ¬ claimC1Amended (load s.memory s.instruction_pointer) := by
    show ¬ claimC1Amended (s.memory (s.instruction_pointer % MEMORY_SIZE))
    rw [show s.memory (s.instruction_pointer % MEMORY_SIZE) = b from hmem]
    exact hb
  have hdec := decode_invalid s.memory s.instruction_pointer hload
  have hsp : screen_phase s = s := screen_phase_no_refresh s httr
  set s2 : Emulator := { s with time_to_refresh := s.time_to_refresh - 1 } with hs2
  obtain ⟨m3, q3, r3, i3, st3, t3, c3, op3⟩ := disk_step_no_op .D0 s2 h0
  obtain ⟨m4, q4, r4, i4, st4, t4, c4, op4⟩ :=
    disk_step_no_op .D1 (disk_step .D0 s2) (by rw [op3 .D1]; exact h1)
  set s4 : Emulator := disk_step .D1 (disk_step .D0 s2) with hs4
  have hst4 : s4.state = CpuState.Running := by
    rw [st4, st3]
    exact hrun
  have hmem4 : s4.memory = s.memory := by rw [m4, m3]
  have hip4 : s4.instruction_pointer = s.instruction_pointer := by rw [i4, i3]
  have hq4 : s4.event_queue = s.event_queue := by rw [q4, q3]
  have hr4 : s4.registers = s.registers := by rw [r4, r3]
  have hcyc : cycle s = execute_phase (waiting_phase { s4 with cycles := s4.cycles + 1 }) := by
    simp only [cycle]
    rw [hsp, ← hs2, ← hs4]
  have hwait : waiting_phase { s4 with cycles := s4.cycles + 1 } =
      { s4 with cycles := s4.cycles + 1 } := by
    apply waiting_phase_not_waiting
    show s4.state ≠ CpuState.Waiting
    rw [hst4]
    simp
  have hexec : execute_phase { s4 with cycles := s4.cycles + 1 } =
      { { s4 with cycles := s4.cycles + 1 } with
          instruction_pointer := (s.instruction_pointer + 1) % 65536 } := by
    apply execute_phase_invalid
    · exact hst4
    · show decode_instruction s4.memory s4.instruction_pointer = _
      rw [hmem4, hip4]
      exact hdec
  rw [hcyc, hwait, hexec]
  refine ⟨by rw [hdec], ?_, ?_, ?_, ?_, rfl⟩
  · show s4.registers = s.registers
    exact hr4
  · show s4.memory = s.memory
    exact hmem4
  · show s4.state = s.state
    rw [hst4, hrun]
  · show s4.event_queue = s.event_queue
    exact hq4

/-- Counterexample for C1 as stated: the opcode byte `0x04` is outside the
families listed by the claim, yet it decodes to `Halt` (not `Invalid`) and
one cycle on it changes the CPU state from `Running` to `Halted`. -/
theorem c1_counterexample :
    ¬ claimC1Listed 4 ∧
    (decode_instruction emuHalt.memory emuHalt.instruction_pointer).1 = Instruction.Halt ∧
    emuHalt.state = CpuState.Running ∧
    (cycle emuHalt).state = CpuState.Halted := by
  exact ⟨by decide, rfl, rfl, rfl⟩

/-- Witness for C1 at a concrete input: opcode byte 5 on a fresh running
emulator. -/
theorem c1_witness :
    (decode_instruction emuC1.memory emuC1.instruction_pointer).1 = Instruction.Invalid ∧
    (cycle emuC1).registers = emuC1.registers ∧
    (cycle emuC1).memory = emuC1.memory ∧
    (cycle emuC1).state = emuC1.state ∧
    (cycle emuC1).event_queue = emuC1.event_queue ∧
    (cycle emuC1).instruction_pointer = (emuC1.instruction_pointer + 1) % 65536 :=
  c1_invalid_opcode_noop emuC1 5 rfl (by decide) rfl rfl rfl (by decide)

theorem pushAll_append (q : EventQueue) (l1 l2 : List Event) :
    pushAll (pushAll q l1) l2 = pushAll q (l1 ++ l2) := by
  simp [pushAll, List.foldl_append]

theorem screen_phase_frame (s : Emulator) :
    (screen_phase s).registers = s.registers ∧
    (screen_phase s).instruction_pointer = s.instruction_pointer ∧
    (screen_phase s).state = s.state ∧
    ((screen_phase s).event_queue = s.event_queue ∨
      ∃ e, (screen_phase s).event_queue = s.event_queue.push e) := by
  unfold screen_phase refresh_screen
  split
  · exact ⟨rfl, rfl, rfl, Or.inr ⟨Event.screen_refresh, rfl⟩⟩
  · exact ⟨rfl, rfl, rfl, Or.inl rfl⟩

theorem disk_step_frame (d : DiskId) (s : Emulator) :
    (disk_step d s).registers = s.registers ∧
    (disk_step d s).instruction_pointer = s.instruction_pointer ∧
    (disk_step d s).state = s.state ∧
    ((disk_step d s).event_queue = s.event_queue ∨
      ∃ e, (disk_step d s).event_queue = s.event_queue.push e) := by
  simp only [disk_step]
  cases hev : (update_disk d s.memory (s.disk_slots d)).2.2 with
  | none => exact ⟨rfl, rfl, rfl, Or.inl rfl⟩
  | some e => exact ⟨rfl, rfl, rfl, Or.inr ⟨e, rfl⟩⟩

theorem pushes_trans (q0 q1 q2 : EventQueue)
    (h1 : ∃ l, q1 = pushAll q0 l) (h2 : q2 = q1 ∨ ∃ e, q2 = q1.push e) :
    ∃ l, q2 = pushAll q0 l := by
  obtain ⟨l, rfl⟩ := h1
  rcases h2 with rfl | ⟨e, rfl⟩
  · exact ⟨l, rfl⟩
  · exact ⟨l ++ [e], by simp [pushAll, List.foldl_append]⟩

theorem cycle_halted_step (s : Emulator) (h : s.state = .Halted) :
    (cycle s).registers = s.registers ∧
    (cycle s).instruction_pointer = s.instruction_pointer ∧
    (cycle s).state = .Halted ∧
    (∃ l, (cycle s).event_queue = pushAll s.event_queue l) := by
  obtain ⟨spR, spI, spS, spQ⟩ := screen_phase_frame s
  set s1 := screen_phase s with hs1
  set s2 : Emulator := { s1 with time_to_refresh := s1.time_to_refresh - 1 } with hs2
  obtain ⟨d0R, d0I, d0S, d0Q⟩ := disk_step_frame .D0 s2
  set s3 := disk_step .D0 s2 with hs3
  obtain ⟨d1R, d1I, d1S, d1Q⟩ := disk_step_frame .D1 s3
  set s4 := disk_step .D1 s3 with hs4
  have hst4 : s4.state = CpuState.Halted := by
    rw [d1S, d0S]
    show s1.state = CpuState.Halted
    rw [spS, h]
  have hcyc : cycle s = { s4 with cycles := s4.cycles + 1 } := by
    simp only [cycle]
    rw [← hs1, ← hs2, ← hs3, ← hs4]
    rw [waiting_phase_not_waiting _ (by show s4.state ≠ _; rw [hst4]; simp),
      execute_phase_not_running _ (by show s4.state ≠ _; rw [hst4]; simp)]
  have hq : ∃ l, s4.event_queue = pushAll s.event_queue l := by
    apply pushes_trans s.event_queue s3.event_queue s4.event_queue
    · apply pushes_trans s.event_queue s2.event_queue s3.event_queue
      · apply pushes_trans s.event_queue s1.event_queue s2.event_queue
        · rcases spQ with hsq | ⟨e, hsq⟩
          · exact ⟨[], hsq⟩
          · exact ⟨[e], hsq⟩
        · exact Or.inl rfl
      · exact d0Q
    · exact d1Q
  rw [hcyc]
  refine ⟨?_, ?_, ?_, ?_⟩
  · show s4.registers = s.registers
    rw [d1R, d0R]
    show s1.registers = s.registers
    exact spR
  · show s4.instruction_pointer = s.instruction_pointer
    rw [d1I, d0I]
    show s1.instruction_pointer = s.instruction_pointer
    exact spI
  · show s4.state = CpuState.Halted
    exact hst4
  · exact hq

/-- C9: the `Halted` state is terminal: over any number of cycles from a
halted CPU the instruction pointer and all registers are unchanged, the
state stays `Halted`, and the event queue only ever receives pushes (no
event is dequeued); `is_running` is `false` exactly in `Halted` and `true`
in `Running` and `Waiting`. -/
theorem c9_halted_terminal :
    (∀ (s : Emulator) (n : Nat), s.state = .Halted →
      (run n s).registers = s.registers ∧
      (run n s).instruction_pointer = s.instruction_pointer ∧
      (run n s).state = .Halted ∧
      (∃ pushed, (run n s).event_queue = pushAll s.event_queue pushed) ∧
      is_running (run n s) = false) ∧
    (∀ s : Emulator, s.state = .Running ∨ s.state = .Waiting → is_running s = true) := by
  constructor
  · intro s n hs
    induction n generalizing s with
    | zero =>
      refine ⟨rfl, rfl, ?_, ⟨[], rfl⟩, ?_⟩
      · show s.state = CpuState.Halted
        exact hs
      · show is_running s = false
        simp [is_running, hs]
    | succ n ih =>
      obtain ⟨cR, cI, cS, cQ⟩ := cycle_halted_step s hs
      obtain ⟨iR, iI, iS, iQ, iB⟩ := ih (cycle s) cS
      have hrun : run (n + 1) s = run n (cycle s) := rfl
      rw [hrun]
      refine ⟨by rw [iR, cR], by rw [iI, cI], iS, ?_, iB⟩
      obtain ⟨l1, hl1⟩ := cQ
      obtain ⟨l2, hl2⟩ := iQ
      exact ⟨l1 ++ l2, by rw [hl2, hl1, pushAll_append]⟩
  · intro s hs
    rcases hs with h | h <;> simp [is_running, h]

/-- Witness for C9 at a concrete input: three cycles on a concrete halted
emulator. -/
theorem c9_witness :
    (run 3 emuHalted).registers = emuHalted.registers ∧
    (run 3 emuHalted).instruction_pointer = emuHalted.instruction_pointer ∧
    (run 3 emuHalted).state = .Halted ∧
    (∃ pushed, (run 3 emuHalted).event_queue = pushAll emuHalted.event_queue pushed) ∧
    is_running (run 3 emuHalted) = false :=
  c9_halted_terminal.1 emuHalted 3 rfl

theorem screen_phase_slots (s : Emulator) : (screen_phase s).disk_slots = s.disk_slots := by
  unfold screen_phase refresh_screen
  split <;> rfl

theorem waiting_phase_slots (s : Emulator) : (waiting_phase s).disk_slots = s.disk_slots := by
  unfold waiting_phase
  split
  · rcases hp : s.event_queue.pop with ⟨oe, q⟩
    cases oe <;> rfl
  · rfl

theorem disk_step_other (step_d d : DiskId) (s : Emulator) (hne : d ≠ step_d) :
    (disk_step step_d s).disk_slots d = s.disk_slots d := by
  simp only [disk_step]
  cases hev : (update_disk step_d s.memory (s.disk_slots step_d)).2.2 <;>
    exact Function.update_noteq hne _ _

theorem update_disk_keeps_op (d : DiskId) (m : Nat → Nat) (slot : DiskSlot) (op : DiskOp)
    (h : slot.disk.runningOp = some op) (h1 : 1 ≤ op.delay) (h2 : 1 ≤ op.remaining)
    (h3 : ¬(op.delay = 1 ∧ op.remaining = 1)) :
    (((update_disk d m slot).2.1).disk.runningOp).isSome = true := by
  cases hd : slot.disk with
  | Missing => rw [hd] at h; simp [SlotDisk.runningOp] at h
  | Present md it rop =>
    rw [hd] at h
    simp only [SlotDisk.runningOp] at h
    subst h
    cases op with
    | Reading dp mp rem delay =>
      simp only [DiskOp.delay, DiskOp.remaining] at h1 h2 h3
      simp only [update_disk, hd]
      rcases Nat.lt_or_ge 1 delay with hgt | hle
      · rw [if_neg (by omega)]
        simp [SlotDisk.runningOp]
      · have hd1 : delay = 1 := by omega
        subst hd1
        rw [if_pos (by omega), if_neg (by omega)]
        simp [SlotDisk.runningOp]
    | Writing dp mp rem delay =>
      simp only [DiskOp.delay, DiskOp.remaining] at h1 h2 h3
      simp only [update_disk, hd]
      rcases Nat.lt_or_ge 1 delay with hgt | hle
      · rw [if_neg (by omega)]
        simp [SlotDisk.runningOp]
      · have hd1 : delay = 1 := by omega
        subst hd1
        rw [if_pos (by omega), if_neg (by omega)]
        simp [SlotDisk.runningOp]

theorem disk_step_keeps_op (step_d d : DiskId) (s : Emulator) (op : DiskOp)
    (h : ((s.disk_slots d).disk).runningOp = some op)
    (h1 : 1 ≤ op.delay) (h2 : 1 ≤ op.remaining) (h3 : ¬(op.delay = 1 ∧ op.remaining = 1)) :
    ((((disk_step step_d s).disk_slots d).disk).runningOp).isSome = true := by
  rcases eq_or_ne d step_d with rfl | hne
  · simp only [disk_step]
    cases hev : (update_disk d s.memory (s.disk_slots d)).2.2 <;>
      · show (((Function.update s.disk_slots d
            (update_disk d s.memory (s.disk_slots d)).2.1 d).disk).runningOp).isSome = true
        rw [Function.update_same]
        exact update_disk_keeps_op d s.memory (s.disk_slots d) op h h1 h2 h3
  · rw [disk_step_other step_d d s hne, h]
    rfl

theorem apply_keeps_op (s : Emulator) (instr : Instruction) (dq : DiskId)
    (h : (((s.disk_slots dq).disk).runningOp).isSome = true) :
    ((((apply_instruction s instr).disk_slots dq).disk).runningOp).isSome = true := by
  cases instr with
  | Poll =>
    simp only [apply_instruction]
    rcases hp : s.event_queue.pop with ⟨oe, q⟩
    cases oe <;> exact h
  | Jez a t => simp only [apply_instruction]; split <;> exact h
  | Jnz a t => simp only [apply_instruction]; split <;> exact h
  | Jl a t => simp only [apply_instruction]; split <;> exact h
  | Jg a t => simp only [apply_instruction]; split <;> exact h
  | Jle a t => simp only [apply_instruction]; split <;> exact h
  | Jge a t => simp only [apply_instruction]; split <;> exact h
  | Read id mo dp =>
    simp only [apply_instruction]
    cases hd : (s.disk_slots id).disk with
    | Missing => exact h
    | Present md it rop =>
      cases rop with
      | some o => exact h
      | none =>
        rcases eq_or_ne dq id with rfl | hne
        · rw [hd] at h
          simp [SlotDisk.runningOp] at h
        · show (((Function.update s.disk_slots id _ dq).disk).runningOp).isSome = true
          rw [Function.update_noteq hne]
          exact h
  | Write id mo dp =>
    simp only [apply_instruction]
    cases hd : (s.disk_slots id).disk with
    | Missing => exact h
    | Present md it rop =>
      cases rop with
      | some o => exact h
      | none =>
        rcases eq_or_ne dq id with rfl | hne
        · rw [hd] at h
          simp [SlotDisk.runningOp] at h
        · show (((Function.update s.disk_slots id _ dq).disk).runningOp).isSome = true
          rw [Function.update_noteq hne]
          exact h
  | _ => exact h

theorem execute_phase_keeps_op (s : Emulator) (dq : DiskId)
    (h : (((s.disk_slots dq).disk).runningOp).isSome = true) :
    ((((execute_phase s).disk_slots dq).disk).runningOp).isSome = true := by
  unfold execute_phase
  split
  · exact apply_keeps_op _ _ dq h
  · exact h

theorem cycle_keeps_op (s : Emulator) (d : DiskId) (op : DiskOp)
    (h : ((s.disk_slots d).disk).runningOp = some op)
    (h1 : 1 ≤ op.delay) (h2 : 1 ≤ op.remaining) (h3 : ¬(op.delay = 1 ∧ op.remaining = 1)) :
    ((((cycle s).disk_slots d).disk).runningOp).isSome = true := by
  simp only [cycle]
  set Z : Emulator :=
    { screen_phase s with time_to_refresh := (screen_phase s).time_to_refresh - 1 } with hZ
  have hZslots : Z.disk_slots = s.disk_slots := by
    rw [hZ]
    exact screen_phase_slots s
  apply execute_phase_keeps_op
  rw [waiting_phase_slots]
  show ((((disk_step .D1 (disk_step .D0 Z)).disk_slots d).disk).runningOp).isSome = true
  cases d with
  | D0 =>
    rw [disk_step_other .D1 .D0 _ (by decide)]
    exact disk_step_keeps_op .D0 .D0 Z op (by rw [hZslots]; exact h) h1 h2 h3
  | D1 =>
    apply disk_step_keeps_op .D1 .D1 _ op ?_ h1 h2 h3
    rw [disk_step_other .D0 .D1 Z (by decide), hZslots]
    exact h

/-- C7 (amended): `reset` and `remove_disk` are the only operations that
can discard an in-flight disk operation.  One `cycle` never drops a running
op before it completes (given the op invariants `delay ≥ 1`, `remaining ≥ 1`,
a cycle retires the op only on its very last byte, `delay = 1 ∧
remaining = 1`; `run` is just iterated `cycle`); `key_up`, `key_down` and
`insert_disk` never touch a running op; and `reset` itself empties the
event queue, drops any running op in both slots, and leaves both disks'
payload bytes unchanged.  (`remove_disk` on a slot with an in-flight op
discards the op — see the counterexample — so the claim's list of
non-cancelling operations is too large.) -/
theorem c7_reset_only_cancellation :
    (∀ (s : Emulator) (d : DiskId) (op : DiskOp),
      ((s.disk_slots d).disk).runningOp = some op →
      1 ≤ op.delay → 1 ≤ op.remaining → ¬(op.delay = 1 ∧ op.remaining = 1) →
      ((((cycle s).disk_slots d).disk).runningOp).isSome = true) ∧
    (∀ (s : Emulator) (k : Nat),
      (key_up k s).disk_slots = s.disk_slots ∧ (key_down k s).disk_slots = s.disk_slots) ∧
    (∀ (s : Emulator) (id d : DiskId),
      (((insert_disk id s).disk_slots d).disk).runningOp = ((s.disk_slots d).disk).runningOp) ∧
    (∀ s : Emulator,
      (reset s).event_queue = EventQueue.new ∧
      (∀ d, (((reset s).disk_slots d).disk).runningOp = none) ∧
      (∀ d, ((reset s).disk_slots d).data = (s.disk_slots d).data)) := by
  refine ⟨fun s d op h h1 h2 h3 => cycle_keeps_op s d op h h1 h2 h3,
    fun s k => ⟨rfl, rfl⟩, ?_, ?_⟩
  · intro s id d
    cases hd : (s.disk_slots id).disk with
    | Missing =>
      simp only [insert_disk, hd]
      rcases eq_or_ne d id with rfl | hne
      · rw [show (Function.update s.disk_slots d
            ⟨(s.disk_slots d).data, .Present false U64_MAX none⟩ : DiskId → DiskSlot) d =
            (⟨(s.disk_slots d).data, .Present false U64_MAX none⟩ : DiskSlot) from
          Function.update_same .., hd]
        rfl
      · rw [show (Function.update s.disk_slots id
            ⟨(s.disk_slots id).data, .Present false U64_MAX none⟩ : DiskId → DiskSlot) d =
            s.disk_slots d from Function.update_noteq hne _ _]
    | Present md it rop => simp [insert_disk, hd]
  · intro s
    cases hd : (s.disk_slots .D0).disk with
    | Missing =>
      refine ⟨by simp [reset, hd], fun d => ?_, fun d => by simp [reset, hd]⟩
      simp only [reset, hd]
      cases hdd : (s.disk_slots d).disk <;> simp [SlotDisk.runningOp]
    | Present md it rop =>
      refine ⟨by simp [reset, hd], fun d => ?_, fun d => ?_⟩
      · simp only [reset, hd]
        cases d with
        | D0 =>
          rw [Function.update_same]
          rfl
        | D1 =>
          rw [Function.update_noteq (by decide)]
          cases hdd : (s.disk_slots .D1).disk <;> simp [SlotDisk.runningOp]
      · simp only [reset, hd]
        cases d with
        | D0 =>
          rw [Function.update_same]
        | D1 =>
          rw [Function.update_noteq (by decide)]

/-- Counterexample for C7 as stated: `remove_disk` (an operation other than
`reset`) discards slot 0's in-flight read, which still has 4096 bytes to
transfer. -/
theorem c7_counterexample :
    ((emuDiskBusy.disk_slots .D0).disk).runningOp =
      some (.Reading 0 0 DISK_OP_SIZE CYCLES_PER_BYTE) ∧
    (DiskOp.Reading 0 0 DISK_OP_SIZE CYCLES_PER_BYTE).remaining ≠ 0 ∧
    (((remove_disk .D0 emuDiskBusy).disk_slots .D0).disk).runningOp = none := by
  exact ⟨rfl, by decide, rfl⟩

/-- Witness for C7 at concrete inputs: a cycle on the busy disk keeps the
op in flight; reset empties the event queue. -/
theorem c7_witness :
    ((((cycle emuDiskBusy).disk_slots .D0).disk).runningOp).isSome = true ∧
    (reset emuDiskBusy).event_queue = EventQueue.new :=
  ⟨c7_reset_only_cancellation.1 emuDiskBusy .D0 (.Reading 0 0 DISK_OP_SIZE CYCLES_PER_BYTE)
      rfl (by decide) (by decide) (by decide),
   (c7_reset_only_cancellation.2.2.2 emuDiskBusy).1⟩

end Tcpu

namespace Asm

/-- C6: the operand encoder's choice of value-selector nibble and tail
bytes: numbers 0–4 use the short nibble `0x8+v` with no tail, 5–255 the
nibble `0xD` with a one-byte tail, 256–0xFFFE the nibble `0xE` with a
two-byte little-endian tail, 0xFFFF the short nibble `0xF`; a defined label
always encodes as nibble `0xE` with a two-byte little-endian tail. -/
theorem c6_operand_encoding (v : Nat) (fmt : Format) (labels : Labels) :
    (v ≤ 4 → Constant.assemble (.Number ⟨v, fmt⟩) labels = .ok (8 + v, [])) ∧
    (5 ≤ v → v ≤ 255 → Constant.assemble (.Number ⟨v, fmt⟩) labels = .ok (13, [v])) ∧
    (256 ≤ v → v ≤ 65534 →
      Constant.assemble (.Number ⟨v, fmt⟩) labels = .ok (14, [v % 256, v / 256])) ∧
    (v = 65535 → Constant.assemble (.Number ⟨v, fmt⟩) labels = .ok (15, [])) ∧
    (∀ nm frag x, labels nm = some x →
      Constant.assemble (.Name ⟨nm, frag⟩) labels = .ok (14, [x % 256, x / 256 % 256])) := by
  refine ⟨fun h4 => ?_, fun h5 h255 => ?_, fun h256 hfe => ?_, fun hff => ?_,
    fun nm frag x hx => ?_⟩
  · interval_cases v <;> rfl
  · simp only [Constant.assemble]
    rw [if_neg (by omega), if_neg (by omega), if_neg (by omega), if_neg (by omega),
      if_neg (by omega), if_pos (by omega), Nat.mod_eq_of_lt (by omega)]
  · simp only [Constant.assemble]
    rw [if_neg (by omega), if_neg (by omega), if_neg (by omega), if_neg (by omega),
      if_neg (by omega), if_neg (by omega), if_pos (by omega),
      Nat.mod_eq_of_lt (show v / 256 < 256 from by omega)]
  · subst hff
    rfl
  · simp [Constant.assemble, hx]

/-- Witness for C6 at concrete inputs: 3, 7, 300, 0xFFFF, and a label bound
to 0x1234. -/
theorem c6_witness :
    Constant.assemble (.Number ⟨3, .Decimal⟩) (fun _ => none) = .ok (8 + 3, []) ∧
    Constant.assemble (.Number ⟨7, .Decimal⟩) (fun _ => none) = .ok (13, [7]) ∧
    Constant.assemble (.Number ⟨300, .Decimal⟩) (fun _ => none) = .ok (14, [300 % 256, 300 / 256]) ∧
    Constant.assemble (.Number ⟨65535, .Decimal⟩) (fun _ => none) = .ok (15, []) ∧
    Constant.assemble (.Name ⟨"x".toList, Fragment.new "x".toList 1⟩) (fun _ => some 4660) =
      .ok (14, [4660 % 256, 4660 / 256 % 256]) :=
  ⟨(c6_operand_encoding 3 .Decimal (fun _ => none)).1 (by omega),
   (c6_operand_encoding 7 .Decimal (fun _ => none)).2.1 (by omega) (by omega),
   (c6_operand_encoding 300 .Decimal (fun _ => none)).2.2.1 (by omega) (by omega),
   (c6_operand_encoding 65535 .Decimal (fun _ => none)).2.2.2.1 rfl,
   (c6_operand_encoding 0 .Decimal (fun _ => some 4660)).2.2.2.2 "x".toList
     (Fragment.new "x".toList 1) 4660 rfl⟩

theorem except_map_error {α β : Type} (p : Except Error α) (f : α → β) (e : Error)
    (h : p.map f = .error e) : p = .error e := by
  cases p with
  | error e' =>
    simp only [Except.map] at h
    injection h with h
    rw [h]
  | ok a =>
    simp only [Except.map] at h
    exact Except.noConfusion h

theorem or_msg_mem (e1 e2 : Error) (h1 : e1.message ∈ msgSet) (h2 : e2.message ∈ msgSet) :
    (e1.or e2).message ∈ msgSet := by
  unfold Error.or
  split <;> assumption

theorem msg_diskId (f : Fragment) (e : Error) (h : DiskId.parse f = .error e) :
    e.message ∈ msgSet := by
  simp only [DiskId.parse] at h
  repeat' split at h
  all_goals try exact Except.noConfusion h
  all_goals injection h with h
  all_goals subst h
  all_goals simp [msgSet]

theorem msg_register (f : Fragment) (e : Error) (h : Register.parse f = .error e) :
    e.message ∈ msgSet := by
  simp only [Register.parse] at h
  repeat' split at h
  all_goals try exact Except.noConfusion h
  all_goals injection h with h
  all_goals subst h
  all_goals simp [msgSet]

theorem msg_number (f : Fragment) (e : Error) (h : Number.parse f = .error e) :
    e.message ∈ msgSet := by
  simp only [Number.parse] at h
  repeat' split at h
  all_goals try exact Except.noConfusion h
  all_goals injection h with h
  all_goals subst h
  all_goals simp [msgSet]

theorem msg_name (f : Fragment) (e : Error) (h : Name.parse f = .error e) :
    e.message ∈ msgSet := by
  simp only [Name.parse] at h
  repeat' split at h
  all_goals try exact Except.noConfusion h
  all_goals injection h with h
  all_goals subst h
  all_goals simp [msgSet]

theorem msg_constant (f : Fragment) (e : Error) (h : Constant.parse f = .error e) :
    e.message ∈ msgSet := by
  simp only [Constant.parse] at h
  repeat' split at h
  all_goals try exact Except.noConfusion h
  all_goals injection h with h
  all_goals subst h
  all_goals simp [msgSet]

theorem msg_value (f : Fragment) (e : Error) (h : Value.parse f = .error e) :
    e.message ∈ msgSet := by
  simp only [Value.parse] at h
  repeat' split at h
  all_goals try exact Except.noConfusion h
  all_goals injection h with h
  all_goals subst h
  all_goals simp [msgSet]

theorem msg_address (f : Fragment) (e : Error) (h : Address.parse f = .error e) :
    e.message ∈ msgSet := by
  simp only [Address.parse] at h
  repeat' split at h
  all_goals try exact Except.noConfusion h
  all_goals injection h with h
  all_goals subst h
  all_goals first
    | (apply msg_value
       assumption)
    | (apply or_msg_mem
       · apply msg_constant
         assumption
       · simp [msgSet])

theorem msg_parse0 (args opcode : Fragment) (i : Instruction) (e : Error)
    (h : parse0 args opcode i = .error e) : e.message ∈ msgSet := by
  simp only [parse0] at h
  repeat' split at h
  all_goals try exact Except.noConfusion h
  all_goals injection h with h
  all_goals subst h
  all_goals simp [msgSet]

theorem msg_parse1 {α : Type} (pA : Fragment → Except Error α)
    (hA : ∀ f e, pA f = .error e → e.message ∈ msgSet)
    (args opcode : Fragment) (mk : α → Instruction) (e : Error)
    (h : parse1 pA args opcode mk = .error e) : e.message ∈ msgSet := by
  simp only [parse1] at h
  repeat' split at h
  all_goals try exact Except.noConfusion h
  all_goals injection h with h
  all_goals subst h
  all_goals first
    | (apply hA
       assumption)
    | simp [msgSet]

theorem msg_parse2 {α β : Type} (pA : Fragment → Except Error α) (pB : Fragment → Except Error β)
    (hA : ∀ f e, pA f = .error e → e.message ∈ msgSet)
    (hB : ∀ f e, pB f = .error e → e.message ∈ msgSet)
    (args opcode : Fragment) (mk : α → β → Instruction) (e : Error)
    (h : parse2 pA pB args opcode mk = .error e) : e.message ∈ msgSet := by
  simp only [parse2] at h
  repeat' split at h
  all_goals try exact Except.noConfusion h
  all_goals injection h with h
  all_goals subst h
  all_goals first
    | (apply or_msg_mem
       · apply hA
         assumption
       · simp [msgSet])
    | (apply or_msg_mem
       · apply hB
         assumption
       · simp [msgSet])
    | simp [msgSet]

theorem msg_parse3 {α β γ : Type} (pA : Fragment → Except Error α)
    (pB : Fragment → Except Error β) (pC : Fragment → Except Error γ)
    (hA : ∀ f e, pA f = .error e → e.message ∈ msgSet)
    (hB : ∀ f e, pB f = .error e → e.message ∈ msgSet)
    (hC : ∀ f e, pC f = .error e → e.message ∈ msgSet)
    (args opcode : Fragment) (mk : α → β → γ → Instruction) (e : Error)
    (h : parse3 pA pB pC args opcode mk = .error e) : e.message ∈ msgSet := by
  simp only [parse3] at h
  repeat' split at h
  all_goals try exact Except.noConfusion h
  all_goals injection h with h
  all_goals subst h
  all_goals first
    | (apply or_msg_mem
       · apply hA
         assumption
       · simp [msgSet])
    | (apply or_msg_mem
       · apply hB
         assumption
       · simp [msgSet])
    | (apply or_msg_mem
       · apply hC
         assumption
       · simp [msgSet])
    | simp [msgSet]

theorem msg_parse_data_go (fuel : Nat) : ∀ (args if_missing : Fragment) (bytes : List Number)
    (e : Error), parse_data_go fuel args if_missing bytes = .error e → e.message ∈ msgSet := by
  induction fuel with
  | zero =>
    intro args ifm bytes e h
    injection h with h
    subst h
    simp [msgSet]
  | succ fuel ih =>
    intro args ifm bytes e h
    simp only [parse_data_go] at h
    repeat' split at h
    all_goals try exact Except.noConfusion h
    all_goals first
      | exact ih _ _ _ _ h
      | (injection h with h
         subst h
         first
           | (apply msg_number
              assumption)
           | simp [msgSet])

theorem msg_parse_data (args opcode : Fragment) (e : Error)
    (h : parse_data args opcode = .error e) : e.message ∈ msgSet := by
  simp only [parse_data] at h
  repeat' split at h
  all_goals try exact Except.noConfusion h
  all_goals injection h with h
  all_goals subst h
  all_goals (apply msg_parse_data_go
             assumption)

theorem msg_ite {α : Type} {c : Prop} [Decidable c] {a b : Except Error α} {e : Error}
    (ha : a = .error e → e.message ∈ msgSet)
    (hb : b = .error e → e.message ∈ msgSet)
    (h : (if c then a else b) = .error e) : e.message ∈ msgSet := by
  split at h
  · exact ha h
  · exact hb h

theorem msg_parse_with (opcode args : Fragment) (e : Error)
    (h : parse_with opcode args = .error e) : e.message ∈ msgSet := by
  simp only [parse_with] at h
  refine msg_ite (fun h =>
    msg_parse0 _ _ _ _ (except_map_error _ _ _ h)) (fun h => ?_) h
  refine msg_ite (fun h =>
    msg_parse0 _ _ _ _ (except_map_error _ _ _ h)) (fun h => ?_) h
  refine msg_ite (fun h =>
    msg_parse0 _ _ _ _ (except_map_error _ _ _ h)) (fun h => ?_) h
  refine msg_ite (fun h =>
    msg_parse0 _ _ _ _ (except_map_error _ _ _ h)) (fun h => ?_) h
  refine msg_ite (fun h =>
    msg_parse1 Register.parse msg_register _ _ _ _ (except_map_error _ _ _ h)) (fun h => ?_) h
  refine msg_ite (fun h =>
    msg_parse1 Register.parse msg_register _ _ _ _ (except_map_error _ _ _ h)) (fun h => ?_) h
  refine msg_ite (fun h =>
    msg_parse1 Register.parse msg_register _ _ _ _ (except_map_error _ _ _ h)) (fun h => ?_) h
  refine msg_ite (fun h =>
    msg_parse1 Value.parse msg_value _ _ _ _ (except_map_error _ _ _ h)) (fun h => ?_) h
  refine msg_ite (fun h =>
    msg_parse1 Value.parse msg_value _ _ _ _ (except_map_error _ _ _ h)) (fun h => ?_) h
  refine msg_ite (fun h =>
    msg_parse1 Value.parse msg_value _ _ _ _ (except_map_error _ _ _ h)) (fun h => ?_) h
  refine msg_ite (fun h =>
    msg_parse2 Register.parse Value.parse msg_register msg_value _ _ _ _ (except_map_error _ _ _ h)) (fun h => ?_) h
  refine msg_ite (fun h =>
    msg_parse2 Register.parse Value.parse msg_register msg_value _ _ _ _ (except_map_error _ _ _ h)) (fun h => ?_) h
  refine msg_ite (fun h =>
    msg_parse2 Register.parse Value.parse msg_register msg_value _ _ _ _ (except_map_error _ _ _ h)) (fun h => ?_) h
  refine msg_ite (fun h =>
    msg_parse2 Register.parse Value.parse msg_register msg_value _ _ _ _ (except_map_error _ _ _ h)) (fun h => ?_) h
  refine msg_ite (fun h =>
    msg_parse2 Register.parse Value.parse msg_register msg_value _ _ _ _ (except_map_error _ _ _ h)) (fun h => ?_) h
  refine msg_ite (fun h =>
    msg_parse2 Register.parse Value.parse msg_register msg_value _ _ _ _ (except_map_error _ _ _ h)) (fun h => ?_) h
  refine msg_ite (fun h =>
    msg_parse2 Register.parse Value.parse msg_register msg_value _ _ _ _ (except_map_error _ _ _ h)) (fun h => ?_) h
  refine msg_ite (fun h =>
    msg_parse2 Register.parse Value.parse msg_register msg_value _ _ _ _ (except_map_error _ _ _ h)) (fun h => ?_) h
  refine msg_ite (fun h =>
    msg_parse2 Register.parse Value.parse msg_register msg_value _ _ _ _ (except_map_error _ _ _ h)) (fun h => ?_) h
  refine msg_ite (fun h =>
    msg_parse2 Register.parse Address.parse msg_register msg_address _ _ _ _ (except_map_error _ _ _ h)) (fun h => ?_) h
  refine msg_ite (fun h =>
    msg_parse2 Register.parse Address.parse msg_register msg_address _ _ _ _ (except_map_error _ _ _ h)) (fun h => ?_) h
  refine msg_ite (fun h =>
    msg_parse2 Value.parse Address.parse msg_value msg_address _ _ _ _ (except_map_error _ _ _ h)) (fun h => ?_) h
  refine msg_ite (fun h =>
    msg_parse2 Value.parse Address.parse msg_value msg_address _ _ _ _ (except_map_error _ _ _ h)) (fun h => ?_) h
  refine msg_ite (fun h =>
    msg_parse2 Register.parse Constant.parse msg_register msg_constant _ _ _ _ (except_map_error _ _ _ h)) (fun h => ?_) h
  refine msg_ite (fun h =>
    msg_parse2 Register.parse Constant.parse msg_register msg_constant _ _ _ _ (except_map_error _ _ _ h)) (fun h => ?_) h
  refine msg_ite (fun h =>
    msg_parse2 Register.parse Constant.parse msg_register msg_constant _ _ _ _ (except_map_error _ _ _ h)) (fun h => ?_) h
  refine msg_ite (fun h =>
    msg_parse2 Register.parse Constant.parse msg_register msg_constant _ _ _ _ (except_map_error _ _ _ h)) (fun h => ?_) h
  refine msg_ite (fun h =>
    msg_parse2 Register.parse Constant.parse msg_register msg_constant _ _ _ _ (except_map_error _ _ _ h)) (fun h => ?_) h
  refine msg_ite (fun h =>
    msg_parse2 Register.parse Constant.parse msg_register msg_constant _ _ _ _ (except_map_error _ _ _ h)) (fun h => ?_) h
  refine msg_ite (fun h =>
    msg_parse3 DiskId.parse Constant.parse Constant.parse msg_diskId msg_constant msg_constant _ _ _ _ (except_map_error _ _ _ h)) (fun h => ?_) h
  refine msg_ite (fun h =>
    msg_parse3 DiskId.parse Constant.parse Constant.parse msg_diskId msg_constant msg_constant _ _ _ _ (except_map_error _ _ _ h)) (fun h => ?_) h
  refine msg_ite (fun h =>
    msg_parse_data _ _ _ (except_map_error _ _ _ h)) (fun h => ?_) h
  injection h with h
  subst h
  simp [msgSet]

theorem msg_parse_instruction (f : Fragment) (e : Error)
    (h : parse_instruction f = .error e) : e.message ∈ msgSet := by
  simp only [parse_instruction] at h
  split at h
  · exact Except.noConfusion h
  · exact msg_parse_with _ _ _ h

theorem msg_parse_line (f : Fragment) (e : Error)
    (h : parse_line f = .error e) : e.message ∈ msgSet := by
  simp only [parse_line] at h
  repeat' split at h
  all_goals try exact Except.noConfusion h
  all_goals injection h with h
  all_goals subst h
  all_goals first
    | (apply msg_parse_instruction
       assumption)
    | simp [msgSet]

theorem msg_constant_assemble (c : Constant) (labels : Labels) (e : Error)
    (h : Constant.assemble c labels = .error e) : e.message ∈ msgSet := by
  cases c <;> simp only [Constant.assemble] at h <;> repeat' split at h
  all_goals try exact Except.noConfusion h
  all_goals injection h with h
  all_goals subst h
  all_goals simp [msgSet]

theorem msg_constant_value (c : Constant) (labels : Labels) (e : Error)
    (h : Constant.value c labels = .error e) : e.message ∈ msgSet := by
  cases c <;> simp only [Constant.value] at h <;> repeat' split at h
  all_goals try exact Except.noConfusion h
  all_goals injection h with h
  all_goals subst h
  all_goals simp [msgSet]

theorem msg_value_assemble (v : Value) (labels : Labels) (e : Error)
    (h : Value.assemble v labels = .error e) : e.message ∈ msgSet := by
  cases v with
  | Register r => exact Except.noConfusion h
  | Constant c => exact msg_constant_assemble c labels e h

set_option maxHeartbeats 2000000 in
theorem msg_instruction_assemble (i : Instruction) (labels : Labels) (e : Error)
    (h : Instruction.assemble i labels = .error e) : e.message ∈ msgSet := by
  cases i <;> simp only [Instruction.assemble] at h <;> repeat' split at h
  all_goals try exact Except.noConfusion h
  all_goals injection h with h
  all_goals subst h
  all_goals first
    | (apply msg_value_assemble
       assumption)
    | (apply msg_constant_assemble
       assumption)
    | (apply msg_constant_value
       assumption)

/-- C8 (amended): every error the assembler's line parser or its
instruction-assembly stage produces carries a source fragment (an `Error`
is a fragment plus a message by construction), and its message lies in the
fixed set `msgSet` — the claimed set extended with `invalid disk` and the
argument-count strings the source really uses (including `parse3`'s
`expected two argument`). -/
theorem c8_error_message_set :
    (∀ (f : Fragment) (e : Error), parse_line f = .error e → e.message ∈ msgSet) ∧
    (∀ (i : Instruction) (labels : Labels) (e : Error),
      Instruction.assemble i labels = .error e → e.message ∈ msgSet) :=
  ⟨fun f e h => msg_parse_line f e h,
   fun i labels e h => msg_instruction_assemble i labels e h⟩

/-- Counterexample for C8 as stated: the line `read 2,0,0` is rejected with
the message `invalid disk`, which is not in the claim's fixed message set. -/
theorem c8_counterexample :
    parse_line fragC8 = .error errC8 ∧ errC8.message ∉ claimC8Messages := by
  exact ⟨by rfl, by decide⟩

/-- Witness for C8 at a concrete input: the `invalid disk` error of
`read 2,0,0` indeed lands in the amended message set. -/
theorem c8_witness : errC8.message ∈ msgSet :=
  c8_error_message_set.1 fragC8 errC8 (by rfl)

end Asm